import Mathlib

/-!
A shallow embedding, in Lean 4, of the interference-product engine of this
repository: `calculator.py` (product generation, deduplication, ranking,
qualitative severity assessment) and `rf_performance.py` (quantitative
power-budget model).

Modelling conventions:
* Python floats are modelled as rationals (`ℚ`); all arithmetic performed by
  the embedded functions (sums, scaled sums, comparisons) is exact.
* Python's `round(x, 2)` is modelled by `round2` (half-up on the scaled
  value; Python rounds half-to-even, which differs only at exact half-cent
  ties — no property below depends on the tie direction).
* The textual rendering of numbers inside informational strings (Python
  `f"{x:.1f}"` and friends) is modelled with `natStr`/`ratStr`.  Those
  strings never influence control flow, dedup keys or hit tests.
* The result dictionaries of `calculate_all_products` have a fixed key set
  (`Type, IM3_Type, Formula, Frequency_MHz, Aggressors, Victims, Risk,
  Severity, Details`) and are modelled as the structure `Product`; the
  `Severity` key, absent on the enumeration branches that only emit legacy
  risk symbols, is an `Option ℕ`.
-/

/-- A radio band, as consumed from the band registry: `code` is the
identifier, `tx_low`/`tx_high` the transmit edges in MHz (`0`/`0` is the
receive-only sentinel), `rx_low`/`rx_high` the receive edges. -/
structure Band where
  code : String
  tx_low : ℚ
  tx_high : ℚ
  rx_low : ℚ
  rx_high : ℚ
deriving DecidableEq, Repr

/-- The receive-only sentinel test `tx_low == 0 and tx_high == 0`. -/
def Band.rxOnly (b : Band) : Bool := decide (b.tx_low = 0 ∧ b.tx_high = 0)

/-- Python `round(q, 2)`: round to 2 decimal places. -/
def round2 (q : ℚ) : ℚ := ((⌊q * 100 + 1 / 2⌋ : ℤ) : ℚ) / 100

/-- Python's substring test `needle in hay`. -/
def hasSub (hay needle : String) : Bool := decide (needle.data <:+: hay.data)

/-- Decimal digits of a positive numeral (fuel-based structural recursion,
so that the kernel can evaluate it). -/
def natStrAux : ℕ → ℕ → List Char
  | 0, _ => []
  | fuel + 1, n => if n = 0 then [] else natStrAux fuel (n / 10) ++ [Char.ofNat (48 + n % 10)]

/-- The decimal rendering of a natural number (Python `str`). -/
def natStr (n : ℕ) : String := if n = 0 then "0" else ⟨natStrAux n n⟩

/-- The decimal rendering of an integer. -/
def intStr (i : ℤ) : String := if i < 0 then "-" ++ natStr i.natAbs else natStr i.natAbs

/-- The rendering of a rational into informational strings (the model's
stand-in for Python float formatting; these strings carry no logic). -/
def ratStr (q : ℚ) : String := intStr q.num ++ (if q.den = 1 then "" else "/" ++ natStr q.den)

/-- ASCII lower-casing of one character (band codes are ASCII). -/
def lowerChar (c : Char) : Char :=
  if 'A' ≤ c ∧ c ≤ 'Z' then Char.ofNat (c.toNat + 32) else c

/-- ASCII upper-casing of one character. -/
def upperChar (c : Char) : Char :=
  if 'a' ≤ c ∧ c ≤ 'z' then Char.ofNat (c.toNat - 32) else c

/-- Python `s.lower()` (ASCII). -/
def strLower (s : String) : String := ⟨s.data.map lowerChar⟩

/-- Python `s.upper()` (ASCII). -/
def strUpper (s : String) : String := ⟨s.data.map upperChar⟩

/-- Split on a non-empty separator (fuel-based structural recursion so the
kernel can evaluate it; the fuel is the input length, which always
suffices). -/
def splitSepAux (sep : List Char) : ℕ → List Char → List Char → List (List Char)
  | 0, acc, _ => [acc.reverse]
  | fuel + 1, acc, l =>
    match l with
    | [] => [acc.reverse]
    | c :: cs =>
      if sep ≠ [] ∧ sep.isPrefixOf l then
        acc.reverse :: splitSepAux sep fuel [] (l.drop sep.length)
      else
        splitSepAux sep fuel (c :: acc) cs

/-- Python `s.split(sep)` for a non-empty separator. -/
def strSplitOn (s sep : String) : List String :=
  (splitSepAux sep.data s.data.length [] s.data).map (fun l => ⟨l⟩)

/-- Python `s.endswith(suffix)`. -/
def strEndsWith (s suffix : String) : Bool := decide (suffix.data <:+ s.data)

/-- Python `s.startswith(prefix)`. -/
def strStartsWith (s pre : String) : Bool := decide (pre.data <+: s.data)

/-- `critical_bands` of `assess_risk_severity` (`calculator.py`): name,
window low, window high, severity; in source (insertion) order. -/
def criticalBands : List (String × ℚ × ℚ × ℕ) :=
  [("GNSS_L1", 1575, 1576, 5),
   ("GNSS_L2", 1227, 1228, 5),
   ("GNSS_L5", 1176, 1177, 4),
   ("ISM_24", 2400, 2500, 4),
   ("ISM_58", 5725, 5875, 3),
   ("FirstNet", 758, 768, 5),
   ("PublicSafety", 763, 775, 5),
   ("Cellular_UL", 824, 894, 4),
   ("WiFi_24", 2400, 2495, 4),
   ("WiFi_5", 5150, 5925, 3),
   ("BLE", 2402, 2480, 4)]

/-- `victim_criticality` table of `assess_risk_severity`, in source order. -/
def victimCriticality : List (String × ℕ) :=
  [("GNSS_L1", 5), ("GNSS_L2", 5), ("GNSS_L5", 4),
   ("LTE_B13", 5), ("LTE_B14", 5),
   ("BLE", 4), ("WiFi_2G", 4), ("WiFi_5G", 3), ("HaLow_NA", 3)]

/-- The victim-criticality pass: baseline severity 1, raised to the level of
the first matching pattern (the source loop `break`s at the first match). -/
def victimBaseSeverity (victim_code : String) : ℕ :=
  match victimCriticality.find? (fun pr => hasSub victim_code pr.1) with
  | some pr => max 1 pr.2
  | none => 1

/-- The critical-frequency-window pass: the first window containing the
frequency raises severity (`max`), and a GNSS-tagged window then forces the
severity to exactly 5 (the source loop `break`s after the first match). -/
def bandAdjustedSeverity (frequency : ℚ) (s : ℕ) : ℕ :=
  match criticalBands.find? (fun e => decide (e.2.1 ≤ frequency ∧ frequency ≤ e.2.2.1)) with
  | some e => if hasSub e.1 "GNSS" then 5 else max s e.2.2.2
  | none => s

/-- The product-type severity modifier: 3H/2H/IM2 increment (capped at 5),
IM4/IM5/IM7 decrement (floored at 1). -/
def typeAdjustedSeverity (product_type : String) (s : ℕ) : ℕ :=
  if product_type = "3H" then min (s + 1) 5
  else if product_type = "2H" then min (s + 1) 5
  else if product_type = "IM2" then min (s + 1) 5
  else if product_type = "IM4" ∨ product_type = "IM5" ∨ product_type = "IM7" then max (s - 1) 1
  else s

/-- Severity 1–5 to risk symbol, as at the end of `assess_risk_severity`. -/
def severitySymbol (s : ℕ) : String :=
  if s ≥ 5 then "🔴" else if s ≥ 4 then "🟠" else if s ≥ 3 then "🟡"
  else if s ≥ 2 then "🔵" else "✅"

/-- `assess_risk_severity(frequency, victim_code, aggressors, product_type)`
(`calculator.py`): returns `(risk_symbol, severity)`.  The sequential
mutations of the source's `severity` variable are the chain `s1 … s6`. -/
def assess_risk_severity (frequency : ℚ) (victim_code aggressors product_type : String) :
    String × ℕ :=
  let s1 := victimBaseSeverity victim_code
  let s2 := bandAdjustedSeverity frequency s1
  let s3 := typeAdjustedSeverity product_type s2
  let s4 := if hasSub aggressors "," || hasSub (strLower aggressors) " and " then
              min (s3 + 1) 5 else s3
  let s5 := if hasSub aggressors "LTE_B13" || hasSub aggressors "LTE_B14" then
              min (s4 + 1) 5 else s4
  let s6 := if hasSub victim_code "BLE" && hasSub aggressors "WiFi"
               && decide (2400 ≤ frequency ∧ frequency ≤ 2500) then 5 else s5
  (severitySymbol s6, s6)

/-- `aclr_check(tx_high, rx_low, margin)` (`calculator.py`). -/
def aclr_check (tx_high rx_low margin : ℚ) : Bool := decide (|tx_high - rx_low| ≤ margin)

/-- One generated result record of `calculate_all_products` (the Python
result dict); `severity = none` models the dicts that lack a `Severity`
key. -/
structure Product where
  ptype : String
  subtype : String
  formula : String
  freq : ℚ
  aggr : String
  victims : String
  risk : String
  severity : Option ℕ
  details : String
deriving DecidableEq, Repr

/-- One pre-victim-loop emission: everything a generation branch computes
before iterating over candidate victims.  `assessed = true` for the
branches that call `assess_risk_severity` at generation time (harmonics,
IM2, and the two IM3 fundamental-only blocks); `false` for the branches
that only emit the legacy symbols `⚠️`/`✓` with no `Severity` key. -/
structure Emission where
  etype : String
  subtype : String
  formula : String
  freq : ℚ
  aggr : String
  details : String
  assessed : Bool
deriving DecidableEq, Repr

/-- The inner victim loop shared by all harmonic/IMD branches: hit test
`rx_low − guard ≤ freq ≤ rx_high + guard` against the raw (unrounded)
frequency, then the branch-specific risk fields. -/
def victimize (guard : ℚ) (e : Emission) (victim : Band) : Product :=
  let hit := decide (victim.rx_low - guard ≤ e.freq ∧ e.freq ≤ victim.rx_high + guard)
  if e.assessed then
    let rs := if hit then assess_risk_severity e.freq victim.code e.aggr e.etype
              else ("✅", 0)
    ⟨e.etype, e.subtype, e.formula, round2 e.freq, e.aggr,
     if hit then victim.code else "", rs.1, some rs.2, e.details⟩
  else
    ⟨e.etype, e.subtype, e.formula, round2 e.freq, e.aggr,
     if hit then victim.code else "", if hit then "⚠️" else "✓", none, e.details⟩

/-- `[b.tx_low, b.tx_high]`, the two Tx edges iterated by every branch. -/
def txEdges (b : Band) : List ℚ := [b.tx_low, b.tx_high]

/-- The label Python computes as `'low' if e == b.tx_low else 'high'`. -/
def edgeLabel (b : Band) (e : ℚ) : String := if e = b.tx_low then "low" else "high"

/-- `'+' if sign > 0 else '-'`. -/
def signStr (s : ℚ) : String := if s > 0 then "+" else "-"

/-- The harmonic generation loop (`calculator.py`, "Harmonics (2H..5H)"):
receive-only bands are skipped as sources, zero edges are skipped, and one
emission is produced per (band, order, edge). -/
def harmonicEmissions (bands : List Band) : List Emission :=
  bands.flatMap fun b =>
    if b.rxOnly then [] else
    [2, 3, 4, 5].flatMap fun order =>
      (txEdges b).flatMap fun edge =>
        if edge = 0 then [] else
        [⟨natStr order ++ "H", "Harmonic",
          natStr order ++ "×Tx_" ++ edgeLabel b edge ++ "(" ++ b.code ++ ")",
          edge * (order : ℚ), b.code,
          natStr order ++ "th Harmonic: " ++ natStr order ++ "×" ++ ratStr edge
            ++ " = " ++ ratStr (edge * (order : ℚ)) ++ " MHz (Band: " ++ b.code ++ ")",
          true⟩]

/-- The unordered pairs `(l[i], l[j])` with `i < j`, in Python's
`for i: for j in range(i+1, n)` order. -/
def upperPairs {α : Type} : List α → List (α × α)
  | [] => []
  | x :: xs => (xs.map fun y => (x, y)) ++ upperPairs xs

/-- All ordered pairs `(l[i], l[j])` with `i ≠ j` (by position), in Python's
`for i: for j: if i == j: continue` order. -/
def orderedNePairs {α : Type} (l : List α) : List (α × α) :=
  (List.range l.length).flatMap fun i =>
    (List.range l.length).flatMap fun j =>
      if i = j then []
      else
        match l.get? i, l.get? j with
        | some a, some b => [(a, b)]
        | _, _ => []

/-- The IM2 emissions for one transmitting pair: per sign, the main
`A + sign·B` term (only if positive), and, on the minus iteration only, the
reverse difference `B − A` (only if positive).  Aggressor string is always
`"b1, b2"`. -/
def im2PairEmissions (b1 b2 : Band) : List Emission :=
  (txEdges b1).flatMap fun A =>
    if A = 0 then [] else
    (txEdges b2).flatMap fun B =>
      if B = 0 then [] else
      [(1 : ℚ), -1].flatMap fun sign =>
        (if A + sign * B > 0 then
          [⟨"IM2", "Beat Frequency",
            b1.code ++ "_" ++ edgeLabel b1 A ++ " " ++ signStr sign ++ " "
              ++ b2.code ++ "_" ++ edgeLabel b2 B,
            A + sign * B, b1.code ++ ", " ++ b2.code,
            "IM2 Beat: " ++ ratStr A ++ " " ++ signStr sign ++ " " ++ ratStr B
              ++ " = " ++ ratStr (A + sign * B) ++ " MHz (A=" ++ b1.code
              ++ ", B=" ++ b2.code ++ ")",
            true⟩]
         else [])
        ++ (if sign = -1 then
              (if B - A > 0 then
                [⟨"IM2", "Beat Frequency",
                  b2.code ++ "_" ++ edgeLabel b2 B ++ " - " ++ b1.code ++ "_" ++ edgeLabel b1 A,
                  B - A, b1.code ++ ", " ++ b2.code,
                  "IM2 Beat: " ++ ratStr B ++ " - " ++ ratStr A ++ " = "
                    ++ ratStr (B - A) ++ " MHz (B=" ++ b2.code ++ ", A=" ++ b1.code ++ ")",
                  true⟩]
               else [])
            else [])

/-- The IM2 loop over unordered pairs; receive-only bands are skipped as
aggressors on either side. -/
def im2Emissions (bands : List Band) : List Emission :=
  (upperPairs bands).flatMap fun pr =>
    if pr.1.rxOnly || pr.2.rxOnly then [] else im2PairEmissions pr.1 pr.2

/-- IM3 fundamental-only block `2·A ± B` (zero edges skipped); assessed. -/
def im3FundA (b1 b2 : Band) : List Emission :=
  (txEdges b1).flatMap fun A =>
    if A = 0 then [] else
    (txEdges b2).flatMap fun B =>
      if B = 0 then [] else
      [(-1 : ℚ), 1].map fun sign =>
        ⟨"IM3", "Fundamental-only",
         "2×" ++ b1.code ++ "_" ++ edgeLabel b1 A ++ " " ++ signStr sign ++ " "
           ++ b2.code ++ "_" ++ edgeLabel b2 B,
         2 * A + sign * B, b1.code ++ ", " ++ b2.code,
         "IM3 (Fundamental-only): 2×" ++ ratStr A ++ " " ++ signStr sign ++ " "
           ++ ratStr B ++ " = " ++ ratStr (2 * A + sign * B) ++ " MHz (A="
           ++ b1.code ++ ", B=" ++ b2.code ++ ")",
         true⟩

/-- IM3 fundamental-only block `2·B ± A` (the source has no zero-edge
checks in this block); assessed. -/
def im3FundB (b1 b2 : Band) : List Emission :=
  (txEdges b2).flatMap fun B =>
    (txEdges b1).flatMap fun A =>
      [(-1 : ℚ), 1].map fun sign =>
        ⟨"IM3", "Fundamental-only",
         "2×" ++ b2.code ++ "_" ++ edgeLabel b2 B ++ " " ++ signStr sign ++ " "
           ++ b1.code ++ "_" ++ edgeLabel b1 A,
         2 * B + sign * A, b1.code ++ ", " ++ b2.code,
         "IM3 (Fundamental-only): 2×" ++ ratStr B ++ " " ++ signStr sign ++ " "
           ++ ratStr A ++ " = " ++ ratStr (2 * B + sign * A) ++ " MHz (B="
           ++ b2.code ++ ", A=" ++ b1.code ++ ")",
         true⟩

/-- IM3 mixed block `2·(2·A) ± B`; legacy risk symbols, no severity. -/
def im3MixA (b1 b2 : Band) : List Emission :=
  (txEdges b1).flatMap fun A =>
    (txEdges b2).flatMap fun B =>
      [(-1 : ℚ), 1].map fun sign =>
        ⟨"IM3", "2nd Harmonic of A vs Fundamental B",
         "2×(2×" ++ b1.code ++ "_" ++ edgeLabel b1 A ++ ") " ++ signStr sign ++ " "
           ++ b2.code ++ "_" ++ edgeLabel b2 B,
         2 * (2 * A) + sign * B, b1.code ++ ", " ++ b2.code,
         "IM3 (2nd Harmonic of A vs Fundamental B): 2×(2×" ++ ratStr A ++ ") "
           ++ signStr sign ++ " " ++ ratStr B ++ " = " ++ ratStr (2 * (2 * A) + sign * B)
           ++ " MHz (A=" ++ b1.code ++ ", B=" ++ b2.code ++ ")",
         false⟩

/-- IM3 mixed block `2·(2·B) ± A`; legacy risk symbols, no severity. -/
def im3MixB (b1 b2 : Band) : List Emission :=
  (txEdges b2).flatMap fun B =>
    (txEdges b1).flatMap fun A =>
      [(-1 : ℚ), 1].map fun sign =>
        ⟨"IM3", "2nd Harmonic of B vs Fundamental A",
         "2×(2×" ++ b2.code ++ "_" ++ edgeLabel b2 B ++ ") " ++ signStr sign ++ " "
           ++ b1.code ++ "_" ++ edgeLabel b1 A,
         2 * (2 * B) + sign * A, b1.code ++ ", " ++ b2.code,
         "IM3 (2nd Harmonic of B vs Fundamental A): 2×(2×" ++ ratStr B ++ ") "
           ++ signStr sign ++ " " ++ ratStr A ++ " = " ++ ratStr (2 * (2 * B) + sign * A)
           ++ " MHz (B=" ++ b2.code ++ ", A=" ++ b1.code ++ ")",
         false⟩

/-- IM3 double-second-harmonic block `2·A ± 2·B`; legacy risk symbols. -/
def im3DblA (b1 b2 : Band) : List Emission :=
  (txEdges b1).flatMap fun A =>
    (txEdges b2).flatMap fun B =>
      [(-1 : ℚ), 1].map fun sign =>
        ⟨"IM3", "2nd Harmonic of A vs 2nd Harmonic of B",
         "2×" ++ b1.code ++ "_" ++ edgeLabel b1 A ++ " " ++ signStr sign ++ " 2×"
           ++ b2.code ++ "_" ++ edgeLabel b2 B,
         2 * A + sign * 2 * B, b1.code ++ ", " ++ b2.code,
         "IM3 (2nd Harmonic of A vs 2nd Harmonic of B): 2×" ++ ratStr A ++ " "
           ++ signStr sign ++ " 2×" ++ ratStr B ++ " = " ++ ratStr (2 * A + sign * 2 * B)
           ++ " MHz (A=" ++ b1.code ++ ", B=" ++ b2.code ++ ")",
         false⟩

/-- IM3 double-second-harmonic block `2·B ± 2·A`; legacy risk symbols. -/
def im3DblB (b1 b2 : Band) : List Emission :=
  (txEdges b2).flatMap fun B =>
    (txEdges b1).flatMap fun A =>
      [(-1 : ℚ), 1].map fun sign =>
        ⟨"IM3", "2nd Harmonic of B vs 2nd Harmonic of A",
         "2×" ++ b2.code ++ "_" ++ edgeLabel b2 B ++ " " ++ signStr sign ++ " 2×"
           ++ b1.code ++ "_" ++ edgeLabel b1 A,
         2 * B + sign * 2 * A, b1.code ++ ", " ++ b2.code,
         "IM3 (2nd Harmonic of B vs 2nd Harmonic of A): 2×" ++ ratStr B ++ " "
           ++ signStr sign ++ " 2×" ++ ratStr A ++ " = " ++ ratStr (2 * B + sign * 2 * A)
           ++ " MHz (B=" ++ b2.code ++ ", A=" ++ b1.code ++ ")",
         false⟩

/-- IM4 block: `2A+2B`, then the extended `3A+B` and `A+3B`; legacy. -/
def im4Pair (b1 b2 : Band) : List Emission :=
  (txEdges b1).flatMap fun A =>
    (txEdges b2).flatMap fun B =>
      [⟨"IM4", "Higher-order",
        "2×" ++ b1.code ++ "_" ++ edgeLabel b1 A ++ " + 2×" ++ b2.code ++ "_" ++ edgeLabel b2 B,
        2 * A + 2 * B, b1.code ++ ", " ++ b2.code,
        "IM4: 2×" ++ ratStr A ++ " + 2×" ++ ratStr B ++ " = " ++ ratStr (2 * A + 2 * B)
          ++ " MHz (A=" ++ b1.code ++ ", B=" ++ b2.code ++ ")",
        false⟩]
      ++ ([((3 : ℚ), (1 : ℚ)), (1, 3)].map fun cf =>
        ⟨"IM4", "Higher-order",
         ratStr cf.1 ++ "×" ++ b1.code ++ "_" ++ edgeLabel b1 A ++ " + " ++ ratStr cf.2
           ++ "×" ++ b2.code ++ "_" ++ edgeLabel b2 B,
         cf.1 * A + cf.2 * B, b1.code ++ ", " ++ b2.code,
         "IM4: " ++ ratStr cf.1 ++ "×" ++ ratStr A ++ " + " ++ ratStr cf.2 ++ "×"
           ++ ratStr B ++ " = " ++ ratStr (cf.1 * A + cf.2 * B) ++ " MHz (A="
           ++ b1.code ++ ", B=" ++ b2.code ++ ")",
         false⟩)

/-- IM5 block: `3A ± 2B`, then the extended `2A ± 3B`; legacy. -/
def im5Pair (b1 b2 : Band) : List Emission :=
  (txEdges b1).flatMap fun A =>
    (txEdges b2).flatMap fun B =>
      ([(-1 : ℚ), 1].map fun sign =>
        ⟨"IM5", "Higher-order",
         "3×" ++ b1.code ++ "_" ++ edgeLabel b1 A ++ " " ++ signStr sign ++ " 2×"
           ++ b2.code ++ "_" ++ edgeLabel b2 B,
         3 * A + sign * 2 * B, b1.code ++ ", " ++ b2.code,
         "IM5: 3×" ++ ratStr A ++ " " ++ signStr sign ++ " 2×" ++ ratStr B ++ " = "
           ++ ratStr (3 * A + sign * 2 * B) ++ " MHz (A=" ++ b1.code ++ ", B=" ++ b2.code ++ ")",
         false⟩)
      ++ ([(-1 : ℚ), 1].map fun sign =>
        ⟨"IM5", "Higher-order",
         "2×" ++ b1.code ++ "_" ++ edgeLabel b1 A ++ " " ++ signStr sign ++ " 3×"
           ++ b2.code ++ "_" ++ edgeLabel b2 B,
         2 * A + sign * 3 * B, b1.code ++ ", " ++ b2.code,
         "IM5: 2×" ++ ratStr A ++ " " ++ signStr sign ++ " 3×" ++ ratStr B ++ " = "
           ++ ratStr (2 * A + sign * 3 * B) ++ " MHz (A=" ++ b1.code ++ ", B=" ++ b2.code ++ ")",
         false⟩)

/-- IM7 block: `4A ± 3B`; legacy. -/
def im7Pair (b1 b2 : Band) : List Emission :=
  (txEdges b1).flatMap fun A =>
    (txEdges b2).flatMap fun B =>
      [(-1 : ℚ), 1].map fun sign =>
        ⟨"IM7", "Higher-order",
         "4×" ++ b1.code ++ "_" ++ edgeLabel b1 A ++ " " ++ signStr sign ++ " 3×"
           ++ b2.code ++ "_" ++ edgeLabel b2 B,
         4 * A + sign * 3 * B, b1.code ++ ", " ++ b2.code,
         "IM7: 4×" ++ ratStr A ++ " " ++ signStr sign ++ " 3×" ++ ratStr B ++ " = "
           ++ ratStr (4 * A + sign * 3 * B) ++ " MHz (A=" ++ b1.code ++ ", B=" ++ b2.code ++ ")",
         false⟩

/-- The six IM3 enumeration blocks of one ordered pair, in source order. -/
def im3Blocks (b1 b2 : Band) : List Emission :=
  im3FundA b1 b2 ++ im3FundB b1 b2 ++ im3MixA b1 b2 ++ im3MixB b1 b2
    ++ im3DblA b1 b2 ++ im3DblB b1 b2

/-- All emissions of the IM3/IM4/IM5/IM7 pair body, in source order. -/
def imdPairEmissions (imd4 imd5 imd7 : Bool) (b1 b2 : Band) : List Emission :=
  im3Blocks b1 b2
    ++ (if imd4 then im4Pair b1 b2 else [])
    ++ (if imd5 then im5Pair b1 b2 else [])
    ++ (if imd7 then im7Pair b1 b2 else [])

/-- The IM3..IM7 loop over all ordered pairs of distinct positions, with
receive-only bands skipped as aggressors on either side. -/
def imdEmissions (bands : List Band) (imd4 imd5 imd7 : Bool) : List Emission :=
  (orderedNePairs bands).flatMap fun pr =>
    if pr.1.rxOnly || pr.2.rxOnly then [] else imdPairEmissions imd4 imd5 imd7 pr.1 pr.2

/-- Every harmonic/IMD emission produced by one run (the IM2 block is gated
by its toggle; harmonics and IM3 are unconditional; IM4/IM5/IM7 gated
inside `imdPairEmissions`). -/
def allEmissions (bands : List Band) (imd2 imd4 imd5 imd7 : Bool) : List Emission :=
  harmonicEmissions bands
    ++ (if imd2 then im2Emissions bands else [])
    ++ imdEmissions bands imd4 imd5 imd7

/-- The ACLR products (emitted directly, one victim per ordered pair). -/
def aclrProducts (bands : List Band) (aclr_margin : ℚ) : List Product :=
  if aclr_margin > 0 then
    (orderedNePairs bands).flatMap fun pr =>
      if pr.1.rxOnly then [] else
      [⟨"ACLR", "Adjacent-channel",
        pr.1.code ++ "_tx_high vs " ++ pr.2.code ++ "_rx_low",
        round2 ((pr.1.tx_high + pr.2.rx_low) / 2), pr.1.code,
        if aclr_check pr.1.tx_high pr.2.rx_low aclr_margin then pr.2.code else "",
        if aclr_check pr.1.tx_high pr.2.rx_low aclr_margin then "⚠️" else "✓", none,
        "ACLR: " ++ ratStr pr.1.tx_high ++ " MHz vs " ++ ratStr pr.2.rx_low
          ++ " MHz (gap: " ++ ratStr |pr.1.tx_high - pr.2.rx_low| ++ " MHz)"⟩]
  else []

/-- The raw `results` list of `calculate_all_products` before
deduplication: every harmonic/IMD emission is tested against every band of
the selection as a victim, then the ACLR products follow. -/
def rawProducts (bands : List Band) (guard : ℚ) (imd2 imd4 imd5 imd7 : Bool)
    (aclr_margin : ℚ) : List Product :=
  (allEmissions bands imd2 imd4 imd5 imd7).flatMap (fun e => bands.map (victimize guard e))
    ++ aclrProducts bands aclr_margin

/-- The legacy-symbol update at the head of the dedup loop: products whose
risk is `⚠️`/`✓` and that carry no `Severity` key get a severity backfilled
(`assess_risk_severity` on the stored, rounded frequency for `⚠️` with a
victim; `0`/`✅` for `✓`). -/
def backfill (p : Product) : Product :=
  if (p.risk = "⚠️" ∨ p.risk = "✓") ∧ p.severity = none then
    if p.risk = "⚠️" ∧ p.victims ≠ "" then
      let rs := assess_risk_severity p.freq p.victims p.aggr p.ptype
      { p with risk := rs.1, severity := some rs.2 }
    else if p.risk = "✓" then
      { p with risk := "✅", severity := some 0 }
    else p
  else p

/-- Python `sorted` on a list of strings (strings are linearly ordered, so
any sort, stable or not, returns the same list). -/
def sortStrings (l : List String) : List String :=
  List.insertionSort (fun a b : String => a ≤ b) l

/-- The canonicalization key of the dedup pass. -/
abbrev DedupKey := String × ℚ × List String × String

/-- `(Type, round(freq,2) if freq else 0, tuple(sorted(aggressors.split(', ')))
 if aggressors else (), victims)`. -/
def dedupKey (p : Product) : DedupKey :=
  (p.ptype,
   if p.freq = 0 then 0 else round2 p.freq,
   if p.aggr = "" then [] else sortStrings (strSplitOn p.aggr ", "),
   p.victims)

/-- The `seen`-set dedup loop: keep a product iff its key is new. -/
def dedupLoop : List Product → List DedupKey → List Product
  | [], _ => []
  | p :: ps, seen =>
    if dedupKey p ∈ seen then dedupLoop ps seen
    else p :: dedupLoop ps (dedupKey p :: seen)

/-- `get_signal_level_priority` (`calculator.py`). -/
def get_signal_level_priority (p : Product) : ℕ :=
  if p.ptype = "2H" then 1
  else if p.ptype = "IM2" then 2
  else if p.ptype = "3H" then 3
  else if p.ptype = "IM3" then 4
  else if p.ptype = "4H" then 5
  else if p.ptype = "IM4" then 6
  else if p.ptype = "5H" then 7
  else if p.ptype = "IM5" then 8
  else if p.ptype = "IM7" then 9
  else if p.ptype = "ACLR" then 10
  else 99

/-- `6 - severity if severity > 0 else 10`: risk items first (severity 5
maps to 1), safe items last (10). -/
def severityPriority (sev : ℕ) : ℕ := if sev > 0 then 6 - sev else 10

/-- The lexicographic sort-key codomain of `sort_key`. -/
abbrev SortKey := Lex (ℕ × Lex (ℕ × Lex (String × Lex (String × ℚ))))

/-- `sort_key(r)` (`calculator.py`): severity priority, signal-level
priority, type, formula, frequency, compared lexicographically. -/
def sort_key (p : Product) : SortKey :=
  toLex (severityPriority (p.severity.getD 0),
    toLex (get_signal_level_priority p,
      toLex (p.ptype, toLex (p.formula, p.freq))))

/-- The comparison handed to the sort.  Python's `list.sort` is a stable
merge sort; it is modelled with a sort by the same key (the relative order
of products with fully equal sort keys is the only difference, and no
verified property observes it). -/
def productLEP (a b : Product) : Prop := sort_key a ≤ sort_key b

instance : DecidableRel productLEP :=
  fun a b => inferInstanceAs (Decidable (sort_key a ≤ sort_key b))

instance productLEP_total : IsTotal Product productLEP := ⟨fun a b => le_total _ _⟩

instance productLEP_trans : IsTrans Product productLEP := ⟨fun a b c => le_trans⟩

/-- The Tx/Tx, Rx/Rx and Tx-in-Rx overlap alert pass over unordered pairs. -/
def overlapAlerts (bands : List Band) (guard : ℚ) : List String :=
  (upperPairs bands).flatMap fun pr =>
    let b1 := pr.1
    let b2 := pr.2
    (if ¬b1.rxOnly ∧ ¬b2.rxOnly
        ∧ ¬(b1.tx_high + guard < b2.tx_low - guard ∨ b2.tx_high + guard < b1.tx_low - guard) then
       ["Tx band overlap: " ++ b1.code ++ " (" ++ ratStr b1.tx_low ++ "-" ++ ratStr b1.tx_high
         ++ " MHz) and " ++ b2.code ++ " (" ++ ratStr b2.tx_low ++ "-" ++ ratStr b2.tx_high
         ++ " MHz)"]
     else [])
    ++ (if ¬(b1.rx_high + guard < b2.rx_low - guard ∨ b2.rx_high + guard < b1.rx_low - guard) then
       ["Rx band overlap: " ++ b1.code ++ " (" ++ ratStr b1.rx_low ++ "-" ++ ratStr b1.rx_high
         ++ " MHz) and " ++ b2.code ++ " (" ++ ratStr b2.rx_low ++ "-" ++ ratStr b2.rx_high
         ++ " MHz)"]
     else [])
    ++ (if ¬b1.rxOnly ∧ ¬(b1.tx_high + guard < b2.rx_low - guard ∨ b1.tx_low - guard > b2.rx_high + guard) then
       ["Tx(" ++ b1.code ++ ") overlaps Rx(" ++ b2.code ++ ")"]
     else [])
    ++ (if ¬b2.rxOnly ∧ ¬(b2.tx_high + guard < b1.rx_low - guard ∨ b2.tx_low - guard > b1.rx_high + guard) then
       ["Tx(" ++ b2.code ++ ") overlaps Rx(" ++ b1.code ++ ")"]
     else [])

/-- The dedup stage: legacy-symbol backfill on every record, then first-seen
key dedup. -/
def dedupedProducts (bands : List Band) (guard : ℚ) (imd2 imd4 imd5 imd7 : Bool)
    (aclr_margin : ℚ) : List Product :=
  dedupLoop ((rawProducts bands guard imd2 imd4 imd5 imd7 aclr_margin).map backfill) []

/-- The ranking stage: stable sort by `sort_key`. -/
def sortedProducts (bands : List Band) (guard : ℚ) (imd2 imd4 imd5 imd7 : Bool)
    (aclr_margin : ℚ) : List Product :=
  List.insertionSort productLEP (dedupedProducts bands guard imd2 imd4 imd5 imd7 aclr_margin)

/-- The finalization filter: keep only physically meaningful frequencies. -/
def validProducts (bands : List Band) (guard : ℚ) (imd2 imd4 imd5 imd7 : Bool)
    (aclr_margin : ℚ) : List Product :=
  (sortedProducts bands guard imd2 imd4 imd5 imd7 aclr_margin).filter fun p => decide (0 < p.freq)

/-- The count of products dropped by the finalization filter. -/
def invalidCount (bands : List Band) (guard : ℚ) (imd2 imd4 imd5 imd7 : Bool)
    (aclr_margin : ℚ) : ℕ :=
  ((sortedProducts bands guard imd2 imd4 imd5 imd7 aclr_margin).filter fun p =>
    decide (p.freq ≤ 0)).length

/-- The diagnostic note appended when products were filtered out. -/
def invalidNote (n : ℕ) : String :=
  "Note: " ++ natStr n ++ " products with invalid frequencies (≤ 0 MHz) were filtered out"

/-- `calculate_all_products(selected_bands, guard, imd2, imd4, imd5, imd7,
aclr_margin)` (`calculator.py`): returns `(results, overlap_alerts)`. -/
def calculate_all_products (bands : List Band) (guard : ℚ) (imd2 imd4 imd5 imd7 : Bool)
    (aclr_margin : ℚ) : List Product × List String :=
  (validProducts bands guard imd2 imd4 imd5 imd7 aclr_margin,
   overlapAlerts bands guard
     ++ (if 0 < invalidCount bands guard imd2 imd4 imd5 imd7 aclr_margin then
           [invalidNote (invalidCount bands guard imd2 imd4 imd5 imd7 aclr_margin)]
         else []))

/-!
The quantitative power-budget model of `rf_performance.py`.  Only the
fields and functions the reasoning below needs are embedded; the
victim-side desensitization analysis (`calculate_interference_at_victim_quantitative`)
and the harmonic-level pipeline (`calculate_harmonic_level_quantitative`)
involve transcendental float operations (`log10`, `10**x`) and are taken as
parameters of `analyze_interference_quantitative`, whose inclusion/skip
structure is what is verified here.
-/

/-- The fields of `SystemParameters` consumed by the embedded functions
(defaults as in the source dataclass).  Unmodelled fields (thermal-noise
and sensitivity parameters of the victim-side analysis, metadata strings)
are omitted. -/
structure SystemParameters where
  lte_tx_power : ℚ := 23
  wifi_tx_power : ℚ := 18
  ble_tx_power : ℚ := 10
  halow_tx_power : ℚ := 20
  antenna_isolation : ℚ := 25
  pcb_isolation : ℚ := 20
  shield_isolation : ℚ := 0
  tx_harmonic_filtering_db : ℚ := 40
  rx_preselector_filtering_db : ℚ := 0
  out_of_band_rejection_db : ℚ := 60
  wifi_ble_isolation_db : ℚ := 10
  cellular_wifi_isolation_db : ℚ := 15
  iip3_dbm : ℚ := -10
  iip2_dbm : ℚ := 20
  pa_class : String := "AB"
  bias_point_optimized : Bool := true
deriving DecidableEq, Repr

/-- The source's default (all-defaults) parameter set. -/
def defaultParams : SystemParameters := {}

/-- `calculate_hd3_from_iip3(tx_power_dbm, iip3_dbm, pa_class)`
(`rf_performance.py`): `-2·(P_tx − IIP3)` plus PA-class and power-regime
corrections, clamped to `[-70, -20]` dBc. -/
def calculate_hd3_from_iip3 (tx_power_dbm iip3_dbm : ℚ) (pa_class : String) : ℚ :=
  let power_delta := tx_power_dbm - iip3_dbm
  let hd3_basic := -2 * power_delta
  let pa_corr : ℚ :=
    if pa_class = "A" then 5
    else if pa_class = "AB" then 0
    else if pa_class = "B" then -3
    else if pa_class = "C" then -8
    else 0
  let corr := pa_corr + (if power_delta < 5 then 5 else if power_delta > 15 then -3 else 0)
  max (min (hd3_basic + corr) (-20)) (-70)

/-- `calculate_hd2_from_iip2(tx_power_dbm, iip2_dbm, bias_optimized)`:
`-(P_tx − IIP2)` plus bias and symmetry corrections, clamped to
`[-60, -15]` dBc. -/
def calculate_hd2_from_iip2 (tx_power_dbm iip2_dbm : ℚ) (bias_optimized : Bool) : ℚ :=
  let power_delta := tx_power_dbm - iip2_dbm
  let hd2_basic := -power_delta
  let bias_correction : ℚ := if bias_optimized then 3 else -2
  let symmetry_correction : ℚ :=
    if power_delta < 10 then 3 else if power_delta > 20 then -5 else 0
  max (min (hd2_basic + bias_correction + symmetry_correction) (-15)) (-60)

/-- `calculate_higher_order_harmonics(hd2, hd3)`: HD4 = HD2 − 20 dB and
HD5 = HD3 − 15 dB, floored at −80 dBc. -/
def calculate_higher_order_harmonics (hd2_dbc hd3_dbc : ℚ) : ℚ × ℚ :=
  (max (hd2_dbc - 20) (-80), max (hd3_dbc - 15) (-80))

/-- `calculate_system_harmonic_levels`: the `(hd2, hd3, hd4, hd5)` dBc
levels derived from TX power and the linearity parameters. -/
def calculate_system_harmonic_levels (tx_power_dbm : ℚ) (p : SystemParameters) :
    ℚ × ℚ × ℚ × ℚ :=
  let hd2 := calculate_hd2_from_iip2 tx_power_dbm p.iip2_dbm p.bias_point_optimized
  let hd3 := calculate_hd3_from_iip3 tx_power_dbm p.iip3_dbm p.pa_class
  let h45 := calculate_higher_order_harmonics hd2 hd3
  (hd2, hd3, h45.1, h45.2)

/-- The polynomial reference table of `calculate_imd_level_quantitative`:
`(dbc_level, formula, coeff, order)` per known IMD tag. -/
def imdPolynomialTable (imd_order : String) : Option (ℚ × String × String × ℕ) :=
  if imd_order = "IM2" then some (-25.7, "a₂V₁V₂ (2nd order beat/sum products)", "a₂ = 0.0562", 2)
  else if imd_order = "IM3" then
    some (-47.0, "a₃(2V₁²V₂ + 2V₁V₂²) + 5th order contributions", "a₃ = 0.01 + a₅ contributions", 3)
  else if imd_order = "IM4" then some (-57.4, "a₄(3V₁³V₂ + 3V₁V₂³ + mixed terms)", "a₄ = 0.0018", 4)
  else if imd_order = "IM5" then some (-63.9, "a₅(3V₁²2V₂² + 3V₂²2V₁²)", "a₅ = 0.001", 5)
  else if imd_order = "IM7" then some (-70.0, "a₇ higher-order polynomial terms (estimated)", "a₇ ≈ 0.0001 (estimated)", 7)
  else none

/-- `calculate_imd_level_quantitative(power1, power2, imd_order, params)`
(`rf_performance.py`): polynomial reference level (or the conservative
−70 dBc fallback for an unknown tag), scaled by the system HD delta, then
propagated through TX filtering, isolation, and RX rejection, with the
order-dependent engineering clamp.  Returns
`(imd_level_dbc, imd_at_victim_dbm, formula, dominant_coefficient)`. -/
def calculate_imd_level_quantitative (power1_dbm power2_dbm : ℚ) (imd_order : String)
    (p : SystemParameters) : ℚ × ℚ × String × String :=
  let input_power_dbm := max power1_dbm power2_dbm
  let poly := imdPolynomialTable imd_order
  let base0 : ℚ := match poly with | some t => t.1 | none => -70
  let formula : String :=
    match poly with | some t => t.2.1 | none => "Unknown " ++ imd_order ++ " product"
  let dominant_coeff : String := match poly with | some t => t.2.2.1 | none => "unknown"
  let effective_order : ℕ := match poly with | some t => t.2.2.2 | none => 3
  let ch := calculate_system_harmonic_levels input_power_dbm p
  let base_imd_dbc : ℚ :=
    if imd_order = "IM2" then base0 + (ch.1 - (-32.1)) * 0.8
    else if imd_order = "IM3" then base0 + (ch.2.1 - (-60.4)) * 1.2
    else if imd_order = "IM4" then base0 + (ch.2.2.1 - (-73.0)) * 0.9
    else if imd_order = "IM5" then base0 + (ch.2.2.2 - (-84.0)) * 0.8
    else base0
  let imd_at_tx_dbm := input_power_dbm + base_imd_dbc
  let tx_filter_db : ℚ := if effective_order % 2 = 0 then p.tx_harmonic_filtering_db * 0.3 else 0
  let imd_after_tx_filter_dbm := imd_at_tx_dbm - tx_filter_db
  let base_isolation_db := p.antenna_isolation + p.pcb_isolation + p.shield_isolation
  let tech_isolation_db :=
    (if p.wifi_ble_isolation_db > 0 then p.wifi_ble_isolation_db * 0.4 else 0)
      + (if p.cellular_wifi_isolation_db > 0 then p.cellular_wifi_isolation_db * 0.4 else 0)
  let total_isolation_db := base_isolation_db + tech_isolation_db
  let imd_at_victim_input_dbm := imd_after_tx_filter_dbm - total_isolation_db
  let rx_filter_db := p.rx_preselector_filtering_db
    + (if effective_order % 2 = 0 ∨ 5 ≤ effective_order then p.out_of_band_rejection_db * 0.3 else 0)
  let imd_at_victim_final_dbm := imd_at_victim_input_dbm - rx_filter_db
  let fundamental_at_victim_dbm := input_power_dbm - base_isolation_db
  let final_imd_dbc := imd_at_victim_final_dbm - fundamental_at_victim_dbm
  let min_dbc : ℚ :=
    if effective_order = 2 then -10 else if effective_order = 3 then -15
    else if effective_order = 4 then -25 else if effective_order = 5 then -30
    else if effective_order = 7 then -35 else -40
  if final_imd_dbc > min_dbc then (min_dbc, fundamental_at_victim_dbm + min_dbc, formula, dominant_coeff)
  else (final_imd_dbc, imd_at_victim_final_dbm, formula, dominant_coeff)

/-- `get_aggressor_power_quantitative(band_code, params)`: technology TX
power by substring match on the upper-cased band code. -/
def get_aggressor_power_quantitative (band_code : String) (p : SystemParameters) : ℚ :=
  let u := strUpper band_code
  if hasSub u "LTE" || hasSub u "5G" then p.lte_tx_power
  else if hasSub u "WIFI" || hasSub u "WI-FI" || hasSub u "WLAN" then p.wifi_tx_power
  else if hasSub u "BLE" || hasSub u "BLUETOOTH" then p.ble_tx_power
  else if hasSub u "HALOW" then p.halow_tx_power
  else if hasSub u "ISM" || hasSub u "ZIGBEE" || hasSub u "THREAD" then 10
  else if hasSub u "LORA" || hasSub u "SIGFOX" || hasSub u "LORAWAN" then 14
  else if hasSub u "GNSS" || hasSub u "GPS" then 0
  else 20

/-- `assess_quantitative_risk(desensitization_db, victim_band_code)`
(`rf_performance.py`): the technology-specific desensitization risk tiers
(GNSS/GPS ≥ 8 dB critical, otherwise ≥ 12 dB critical); the safety-critical
block after the if/else `return`s in the source is unreachable and is not
modelled.  Returns `(risk_level, risk_symbol)`. -/
def assess_quantitative_risk (desensitization_db : ℚ) (victim_band_code : String) :
    String × String :=
  let u := strUpper victim_band_code
  if hasSub u "GNSS" || hasSub u "GPS" then
    if desensitization_db ≥ 8 then ("Critical", "🔴")
    else if desensitization_db ≥ 3 then ("High", "🟠")
    else if desensitization_db ≥ 1 then ("Medium", "🟡")
    else if desensitization_db ≥ 0.5 then ("Low", "🔵")
    else ("Negligible", "✅")
  else
    if desensitization_db ≥ 12 then ("Critical", "🔴")
    else if desensitization_db ≥ 6 then ("High", "🟠")
    else if desensitization_db ≥ 3 then ("Medium", "🟡")
    else if desensitization_db ≥ 1 then ("Low", "🔵")
    else ("Negligible", "✅")

/-- The `risk_priority` tier ranking used by `create_quantitative_summary`
to order risk labels (Critical highest). -/
def risk_priority (level : String) : ℕ :=
  if level = "Critical" then 5 else if level = "High" then 4
  else if level = "Medium" then 3 else if level = "Low" then 2
  else if level = "Negligible" then 1 else 0

/-- The victim-side analysis record (the dict produced by
`calculate_interference_at_victim_quantitative`); its computation involves
`log10`/`10**x` float math and is a parameter of the analysis below. -/
structure VictimAnalysis where
  interference_at_victim_dbm : ℚ
  victim_sensitivity_dbm : ℚ
  interference_margin_db : ℚ
  desensitization_db : ℚ
  risk_level : String
  risk_symbol : String
deriving DecidableEq, Repr

/-- One `QuantitativeResult` dataclass instance. -/
structure QuantitativeResult where
  frequency_mhz : ℚ
  product_type : String
  aggressors : List String
  victims : List String
  aggressor_power_dbm : ℚ
  interference_level_dbc : ℚ
  interference_at_tx_dbm : ℚ
  interference_at_victim_dbm : ℚ
  victim_sensitivity_dbm : ℚ
  interference_margin_db : ℚ
  desensitization_db : ℚ
  risk_level : String
  risk_symbol : String
  mathematical_formula : String
deriving DecidableEq, Repr

/-- `max(get_aggressor_power_quantitative(agg) for agg in aggressors)`. -/
def maxAggressorPower (aggressors : List String) (p : SystemParameters) : ℚ :=
  match aggressors with
  | [] => 0
  | a :: rest =>
    rest.foldl (fun m x => max m (get_aggressor_power_quantitative x p))
      (get_aggressor_power_quantitative a p)

/-- The fundamental-frequency estimate of the harmonic branch of
`analyze_interference_quantitative`: the Tx midpoint of the first band
whose code equals the first aggressor (stripped) and that transmits,
defaulting to 1000 MHz. -/
def estimateFundamental (aggressors : List String) (band_objects : List Band) : ℚ :=
  match aggressors with
  | [] => 1000
  | a :: _ =>
    match band_objects.find? (fun band => decide (band.code = a.trim ∧ band.tx_low > 0)) with
    | some band => (band.tx_low + band.tx_high) / 2
    | none => 1000

/-- The per-product interference-level dispatch of
`analyze_interference_quantitative`: `none` models the `continue`
(skip) paths — a harmonic tag whose leading character is not a digit
(`int` raises `ValueError`) or whose order is outside 2–5
(`calculate_harmonic_level_quantitative` raises `ValueError`).  The
harmonic level function itself is the parameter `harmLevel`.  Any type
starting with `IM` reaches `calculate_imd_level_quantitative`, which never
raises; any other type gets the −50 dBc default estimate. -/
def productInterferenceLevels
    (harmLevel : ℚ → ℕ → SystemParameters → ℚ → ℚ × ℚ × String × String)
    (p : SystemParameters) (band_objects : List Band)
    (ptype : String) (aggressors : List String) (power : ℚ) :
    Option (ℚ × ℚ × String × String) :=
  if strEndsWith ptype "H" then
    match ptype.data.head? with
    | some c =>
      if c.isDigit then
        let order := c.toNat - '0'.toNat
        if order = 2 ∨ order = 3 ∨ order = 4 ∨ order = 5 then
          some (harmLevel power order p (estimateFundamental aggressors band_objects))
        else none
      else none
    | none => none
  else if strStartsWith ptype "IM" then
    some (calculate_imd_level_quantitative power power ptype p)
  else
    some (-50, power - 50, "Default nonlinearity estimate", "mixed")

/-- `analyze_interference_quantitative(products, band_objects, params)`
(`rf_performance.py`), parameterized by the harmonic-level and victim-side
functions (see module comment): products with no aggressors, no victims or
a non-positive frequency are skipped, the interference level is dispatched
per product type (`none` = skip), and one result is emitted per victim. -/
def analyze_interference_quantitative
    (harmLevel : ℚ → ℕ → SystemParameters → ℚ → ℚ × ℚ × String × String)
    (victimAnal : ℚ → String → List String → SystemParameters → VictimAnalysis)
    (interference_products : List Product) (band_objects : List Band)
    (p : SystemParameters) : List QuantitativeResult :=
  interference_products.flatMap fun product =>
    let aggressors := if product.aggr = "" then [] else strSplitOn product.aggr ", "
    let victims := if product.victims = "" then [] else strSplitOn product.victims ", "
    if aggressors = [] ∨ victims = [] ∨ product.freq ≤ 0 then []
    else
      let power := maxAggressorPower aggressors p
      match productInterferenceLevels harmLevel p band_objects product.ptype aggressors power with
      | none => []
      | some lv =>
        victims.map fun vc =>
          let va := victimAnal lv.2.1 vc aggressors p
          ⟨product.freq, product.ptype, aggressors, [vc], power, lv.1, lv.2.1,
           va.interference_at_victim_dbm, va.victim_sensitivity_dbm,
           va.interference_margin_db, va.desensitization_db,
           va.risk_level, va.risk_symbol, lv.2.2.1⟩

/-!  Generic facts about the dedup loop, the sort, and the final filter. -/

theorem dedupLoop_subset : ∀ (l : List Product) (seen : List DedupKey),
    ∀ p ∈ dedupLoop l seen, p ∈ l
  | [], _ => by simp [dedupLoop]
  | x :: xs, seen => by
    intro p hp
    by_cases h : dedupKey x ∈ seen
    · rw [dedupLoop, if_pos h] at hp
      exact List.mem_cons_of_mem _ (dedupLoop_subset xs seen p hp)
    · rw [dedupLoop, if_neg h] at hp
      rcases List.mem_cons.1 hp with h1 | h1
      · exact h1 ▸ List.mem_cons_self _ _
      · exact List.mem_cons_of_mem _ (dedupLoop_subset xs _ p h1)

theorem dedupLoop_keys_fresh : ∀ (l : List Product) (seen : List DedupKey),
    ∀ p ∈ dedupLoop l seen, dedupKey p ∉ seen
  | [], _ => by simp [dedupLoop]
  | x :: xs, seen => by
    intro p hp
    by_cases h : dedupKey x ∈ seen
    · rw [dedupLoop, if_pos h] at hp
      exact dedupLoop_keys_fresh xs seen p hp
    · rw [dedupLoop, if_neg h] at hp
      rcases List.mem_cons.1 hp with h1 | h1
      · exact h1 ▸ h
      · intro hmem
        exact dedupLoop_keys_fresh xs _ p h1 (List.mem_cons_of_mem _ hmem)

theorem dedupLoop_keys_nodup : ∀ (l : List Product) (seen : List DedupKey),
    ((dedupLoop l seen).map dedupKey).Nodup
  | [], _ => by simp [dedupLoop]
  | x :: xs, seen => by
    by_cases h : dedupKey x ∈ seen
    · rw [dedupLoop, if_pos h]
      exact dedupLoop_keys_nodup xs seen
    · rw [dedupLoop, if_neg h]
      simp only [List.map_cons, List.nodup_cons]
      refine ⟨fun hmem => ?_, dedupLoop_keys_nodup xs _⟩
      rcases List.mem_map.1 hmem with ⟨q, hq, hkey⟩
      exact dedupLoop_keys_fresh xs _ q hq (hkey ▸ List.mem_cons_self _ _)

theorem dedupLoop_first_seen : ∀ (l : List Product) (seen : List DedupKey),
    ∀ p ∈ dedupLoop l seen,
      ∃ l1 l2, l = l1 ++ p :: l2 ∧ ∀ q ∈ l1, dedupKey q ≠ dedupKey p
  | [], _ => by simp [dedupLoop]
  | x :: xs, seen => by
    intro p hp
    by_cases h : dedupKey x ∈ seen
    · rw [dedupLoop, if_pos h] at hp
      obtain ⟨l1, l2, heq, hq⟩ := dedupLoop_first_seen xs seen p hp
      have hfresh := dedupLoop_keys_fresh xs seen p hp
      refine ⟨x :: l1, l2, by rw [heq]; rfl, ?_⟩
      intro q hqmem
      rcases List.mem_cons.1 hqmem with rfl | hq'
      · intro hk
        exact hfresh (hk ▸ h)
      · exact hq q hq'
    · rw [dedupLoop, if_neg h] at hp
      rcases List.mem_cons.1 hp with rfl | hp'
      · exact ⟨[], xs, rfl, by simp⟩
      · obtain ⟨l1, l2, heq, hq⟩ := dedupLoop_first_seen xs _ p hp'
        have hfresh := dedupLoop_keys_fresh xs _ p hp'
        have hnx : dedupKey p ≠ dedupKey x := fun hk => hfresh (hk ▸ List.mem_cons_self _ _)
        refine ⟨x :: l1, l2, by rw [heq]; rfl, ?_⟩
        intro q hqmem
        rcases List.mem_cons.1 hqmem with rfl | hq'
        · exact fun hk => hnx hk.symm
        · exact hq q hq'

theorem backfill_fields (p : Product) :
    (backfill p).ptype = p.ptype ∧ (backfill p).aggr = p.aggr
      ∧ (backfill p).victims = p.victims ∧ (backfill p).freq = p.freq := by
  unfold backfill
  split_ifs <;> exact ⟨rfl, rfl, rfl, rfl⟩

/-- Every product of the final list is the backfilled form of some raw
generated product. -/
theorem mem_final (bands : List Band) (guard : ℚ) (imd2 imd4 imd5 imd7 : Bool)
    (aclr_margin : ℚ) (p : Product)
    (hp : p ∈ (calculate_all_products bands guard imd2 imd4 imd5 imd7 aclr_margin).1) :
    ∃ q ∈ rawProducts bands guard imd2 imd4 imd5 imd7 aclr_margin, p = backfill q := by
  have hp1 : p ∈ sortedProducts bands guard imd2 imd4 imd5 imd7 aclr_margin :=
    (List.filter_sublist _).subset hp
  have hp2 : p ∈ dedupedProducts bands guard imd2 imd4 imd5 imd7 aclr_margin :=
    ((List.perm_insertionSort productLEP _).mem_iff).1 hp1
  have hp3 := dedupLoop_subset _ _ p hp2
  rcases List.mem_map.1 hp3 with ⟨q, hq, hqe⟩
  exact ⟨q, hq, hqe.symm⟩

/-- C1.  For every band list, guard margin and toggle setting, no two
products of the returned list share the canonical key
`(type, rounded frequency, sorted aggressor codes, victim code)`, and every
product surviving the dedup stage is the first-seen product of its key in
the (backfilled) generation order. -/
theorem calculate_all_products_keys_unique (bands : List Band) (guard : ℚ)
    (imd2 imd4 imd5 imd7 : Bool) (aclr_margin : ℚ) :
    (((calculate_all_products bands guard imd2 imd4 imd5 imd7 aclr_margin).1.map dedupKey).Nodup)
    ∧ ∀ p ∈ dedupedProducts bands guard imd2 imd4 imd5 imd7 aclr_margin,
        ∃ l1 l2,
          (rawProducts bands guard imd2 imd4 imd5 imd7 aclr_margin).map backfill = l1 ++ p :: l2
          ∧ ∀ q ∈ l1, dedupKey q ≠ dedupKey p := by
  constructor
  · have h1 : ((dedupedProducts bands guard imd2 imd4 imd5 imd7 aclr_margin).map dedupKey).Nodup :=
      dedupLoop_keys_nodup _ _
    have hperm :
        (sortedProducts bands guard imd2 imd4 imd5 imd7 aclr_margin).Perm
          (dedupedProducts bands guard imd2 imd4 imd5 imd7 aclr_margin) :=
      List.perm_insertionSort productLEP _
    have h2 : ((sortedProducts bands guard imd2 imd4 imd5 imd7 aclr_margin).map dedupKey).Nodup :=
      ((hperm.map dedupKey).symm).nodup h1
    exact List.Nodup.sublist ((List.filter_sublist _).map dedupKey) h2
  · intro p hp
    exact dedupLoop_first_seen _ _ p hp

/-- C3.  Every returned product has a positive frequency; the returned list
is exactly the sorted deduplicated list restricted to positive frequencies;
and the alert list carries the aggregate count of the removed products in a
trailing note exactly when at least one product was removed. -/
theorem calculate_all_products_positive_freq (bands : List Band) (guard : ℚ)
    (imd2 imd4 imd5 imd7 : Bool) (aclr_margin : ℚ) :
    (∀ p ∈ (calculate_all_products bands guard imd2 imd4 imd5 imd7 aclr_margin).1, 0 < p.freq)
    ∧ (calculate_all_products bands guard imd2 imd4 imd5 imd7 aclr_margin).1
        = (sortedProducts bands guard imd2 imd4 imd5 imd7 aclr_margin).filter
            (fun p => decide (0 < p.freq))
    ∧ ((0 < invalidCount bands guard imd2 imd4 imd5 imd7 aclr_margin
          ∧ (calculate_all_products bands guard imd2 imd4 imd5 imd7 aclr_margin).2
              = overlapAlerts bands guard
                  ++ [invalidNote (invalidCount bands guard imd2 imd4 imd5 imd7 aclr_margin)])
        ∨ (invalidCount bands guard imd2 imd4 imd5 imd7 aclr_margin = 0
          ∧ (calculate_all_products bands guard imd2 imd4 imd5 imd7 aclr_margin).2
              = overlapAlerts bands guard)) := by
  refine ⟨?_, rfl, ?_⟩
  · intro p hp
    have hp' : p ∈ (sortedProducts bands guard imd2 imd4 imd5 imd7 aclr_margin).filter
        (fun p => decide (0 < p.freq)) := hp
    have := (List.mem_filter.1 hp').2
    simpa using this
  · by_cases h : 0 < invalidCount bands guard imd2 imd4 imd5 imd7 aclr_margin
    · left
      refine ⟨h, ?_⟩
      simp only [calculate_all_products]
      rw [if_pos h]
    · right
      refine ⟨Nat.eq_zero_of_not_pos h, ?_⟩
      simp only [calculate_all_products]
      rw [if_neg h, List.append_nil]

/-- C5.  The returned list is sorted by the multi-key comparison
`sort_key` (severity tier first — higher severity first, safe products
last —, then the fixed type priority, then type name, formula string and
frequency); the type priorities realize the chain
2H < IM2 < 3H < IM3 < 4H < IM4 < 5H < IM5 < IM7 < ACLR, and the severity
tier ordering puts larger severities strictly earlier and severity 0
strictly last. -/
theorem calculate_all_products_sorted (bands : List Band) (guard : ℚ)
    (imd2 imd4 imd5 imd7 : Bool) (aclr_margin : ℚ) :
    List.Sorted (fun a b => sort_key a ≤ sort_key b)
      (calculate_all_products bands guard imd2 imd4 imd5 imd7 aclr_margin).1
    ∧ (["2H", "IM2", "3H", "IM3", "4H", "IM4", "5H", "IM5", "IM7", "ACLR"].map
        (fun t => get_signal_level_priority ⟨t, "", "", 0, "", "", "", none, ""⟩))
        = [1, 2, 3, 4, 5, 6, 7, 8, 9, 10]
    ∧ (∀ s t : ℕ, 1 ≤ s → s < t → t ≤ 5 → severityPriority t < severityPriority s)
    ∧ (∀ s : ℕ, 1 ≤ s → s ≤ 5 → severityPriority s < severityPriority 0) := by
  refine ⟨?_, by decide, ?_, ?_⟩
  · have hs : List.Sorted productLEP
        (sortedProducts bands guard imd2 imd4 imd5 imd7 aclr_margin) :=
      List.sorted_insertionSort productLEP _
    exact hs.filter _
  · intro s t h1 h2 h3
    simp only [severityPriority]
    split_ifs <;> omega
  · intro s h1 h2
    simp only [severityPriority]
    split_ifs <;> omega

theorem upperPairs_mem {α : Type} : ∀ {l : List α} {pr : α × α},
    pr ∈ upperPairs l → pr.1 ∈ l ∧ pr.2 ∈ l
  | [], pr => by simp [upperPairs]
  | x :: xs, pr => by
    intro h
    rw [upperPairs] at h
    rcases List.mem_append.1 h with h1 | h1
    · rcases List.mem_map.1 h1 with ⟨y, hy, rfl⟩
      exact ⟨List.mem_cons_self _ _, List.mem_cons_of_mem _ hy⟩
    · have h2 := upperPairs_mem h1
      exact ⟨List.mem_cons_of_mem _ h2.1, List.mem_cons_of_mem _ h2.2⟩

theorem orderedNePairs_mem {α : Type} {l : List α} {pr : α × α}
    (h : pr ∈ orderedNePairs l) : pr.1 ∈ l ∧ pr.2 ∈ l := by
  simp only [orderedNePairs, List.mem_flatMap, List.mem_range] at h
  obtain ⟨i, hi, j, hj, hpr⟩ := h
  by_cases hij : i = j
  · rw [if_pos hij] at hpr
    simp at hpr
  · rw [if_neg hij] at hpr
    cases hgi : l.get? i with
    | none =>
      rw [hgi] at hpr
      cases hgj : l.get? j with
      | none => rw [hgj] at hpr; simp at hpr
      | some b => rw [hgj] at hpr; simp at hpr
    | some a =>
      rw [hgi] at hpr
      cases hgj : l.get? j with
      | none => rw [hgj] at hpr; simp at hpr
      | some b =>
        rw [hgj] at hpr
        rcases List.mem_singleton.1 hpr with rfl
        exact ⟨List.get?_mem hgi, List.get?_mem hgj⟩

theorem im2PairEmissions_aggr {b1 b2 : Band} {e : Emission}
    (he : e ∈ im2PairEmissions b1 b2) : e.aggr = b1.code ++ ", " ++ b2.code := by
  simp only [im2PairEmissions, List.mem_flatMap, List.mem_append, List.mem_ite_nil_left,
    List.mem_ite_nil_right, List.mem_singleton] at he
  obtain ⟨A, _, _, B, _, _, s, _, he⟩ := he
  rcases he with ⟨_, rfl⟩ | ⟨_, _, rfl⟩ <;> rfl

theorem im3FundA_aggr {b1 b2 : Band} {e : Emission}
    (he : e ∈ im3FundA b1 b2) : e.aggr = b1.code ++ ", " ++ b2.code := by
  simp only [im3FundA, List.mem_flatMap, List.mem_map, List.mem_ite_nil_left] at he
  obtain ⟨A, _, _, B, _, _, s, _, rfl⟩ := he
  rfl

theorem im3FundB_aggr {b1 b2 : Band} {e : Emission}
    (he : e ∈ im3FundB b1 b2) : e.aggr = b1.code ++ ", " ++ b2.code := by
  simp only [im3FundB, List.mem_flatMap, List.mem_map] at he
  obtain ⟨B, _, A, _, s, _, rfl⟩ := he
  rfl

theorem im3MixA_aggr {b1 b2 : Band} {e : Emission}
    (he : e ∈ im3MixA b1 b2) : e.aggr = b1.code ++ ", " ++ b2.code := by
  simp only [im3MixA, List.mem_flatMap, List.mem_map] at he
  obtain ⟨A, _, B, _, s, _, rfl⟩ := he
  rfl

theorem im3MixB_aggr {b1 b2 : Band} {e : Emission}
    (he : e ∈ im3MixB b1 b2) : e.aggr = b1.code ++ ", " ++ b2.code := by
  simp only [im3MixB, List.mem_flatMap, List.mem_map] at he
  obtain ⟨B, _, A, _, s, _, rfl⟩ := he
  rfl

theorem im3DblA_aggr {b1 b2 : Band} {e : Emission}
    (he : e ∈ im3DblA b1 b2) : e.aggr = b1.code ++ ", " ++ b2.code := by
  simp only [im3DblA, List.mem_flatMap, List.mem_map] at he
  obtain ⟨A, _, B, _, s, _, rfl⟩ := he
  rfl

theorem im3DblB_aggr {b1 b2 : Band} {e : Emission}
    (he : e ∈ im3DblB b1 b2) : e.aggr = b1.code ++ ", " ++ b2.code := by
  simp only [im3DblB, List.mem_flatMap, List.mem_map] at he
  obtain ⟨B, _, A, _, s, _, rfl⟩ := he
  rfl

theorem im4Pair_aggr {b1 b2 : Band} {e : Emission}
    (he : e ∈ im4Pair b1 b2) : e.aggr = b1.code ++ ", " ++ b2.code := by
  simp only [im4Pair, List.mem_flatMap, List.mem_append, List.mem_map, List.mem_cons,
    List.mem_singleton] at he
  obtain ⟨A, _, B, _, he⟩ := he
  rcases he with (rfl | h) | ⟨cf, _, rfl⟩
  · rfl
  · simp at h
  · rfl

theorem im5Pair_aggr {b1 b2 : Band} {e : Emission}
    (he : e ∈ im5Pair b1 b2) : e.aggr = b1.code ++ ", " ++ b2.code := by
  simp only [im5Pair, List.mem_flatMap, List.mem_append, List.mem_map] at he
  obtain ⟨A, _, B, _, he⟩ := he
  rcases he with ⟨s, _, rfl⟩ | ⟨s, _, rfl⟩ <;> rfl

theorem im7Pair_aggr {b1 b2 : Band} {e : Emission}
    (he : e ∈ im7Pair b1 b2) : e.aggr = b1.code ++ ", " ++ b2.code := by
  simp only [im7Pair, List.mem_flatMap, List.mem_map] at he
  obtain ⟨A, _, B, _, s, _, rfl⟩ := he
  rfl

theorem imdPairEmissions_aggr {imd4 imd5 imd7 : Bool} {b1 b2 : Band} {e : Emission}
    (he : e ∈ imdPairEmissions imd4 imd5 imd7 b1 b2) :
    e.aggr = b1.code ++ ", " ++ b2.code := by
  simp only [imdPairEmissions, im3Blocks, List.mem_append, List.mem_ite_nil_right] at he
  rcases he with ((((((((he | he) | he) | he) | he) | he) | ⟨_, he⟩) | ⟨_, he⟩) | ⟨_, he⟩)
  · exact im3FundA_aggr he
  · exact im3FundB_aggr he
  · exact im3MixA_aggr he
  · exact im3MixB_aggr he
  · exact im3DblA_aggr he
  · exact im3DblB_aggr he
  · exact im4Pair_aggr he
  · exact im5Pair_aggr he
  · exact im7Pair_aggr he

/-- Every harmonic/IMD emission draws its aggressor field from the codes of
one or two selected transmitting (non-receive-only) bands. -/
theorem allEmissions_aggr (bands : List Band) (imd2 imd4 imd5 imd7 : Bool) (e : Emission)
    (he : e ∈ allEmissions bands imd2 imd4 imd5 imd7) :
    (∃ b ∈ bands, b.rxOnly = false ∧ e.aggr = b.code)
    ∨ (∃ b1 ∈ bands, ∃ b2 ∈ bands, b1.rxOnly = false ∧ b2.rxOnly = false
        ∧ e.aggr = b1.code ++ ", " ++ b2.code) := by
  simp only [allEmissions, List.mem_append] at he
  rcases he with (he | he) | he
  · simp only [harmonicEmissions, List.mem_flatMap] at he
    obtain ⟨b, hb, he⟩ := he
    obtain ⟨hro, he⟩ := List.mem_ite_nil_left.1 he
    have hro' : b.rxOnly = false := by simpa using hro
    refine Or.inl ⟨b, hb, hro', ?_⟩
    simp only [List.mem_flatMap, List.mem_ite_nil_left, List.mem_singleton] at he
    obtain ⟨order, _, edge, _, _, rfl⟩ := he
    rfl
  · obtain ⟨_, he⟩ := List.mem_ite_nil_right.1 he
    simp only [im2Emissions, List.mem_flatMap] at he
    obtain ⟨pr, hpr, he⟩ := he
    have hmem := upperPairs_mem hpr
    obtain ⟨hro, he⟩ := List.mem_ite_nil_left.1 he
    have hro' : pr.1.rxOnly = false ∧ pr.2.rxOnly = false := by
      simpa [Bool.or_eq_true, not_or] using hro
    exact Or.inr ⟨pr.1, hmem.1, pr.2, hmem.2, hro'.1, hro'.2, im2PairEmissions_aggr he⟩
  · simp only [imdEmissions, List.mem_flatMap] at he
    obtain ⟨pr, hpr, he⟩ := he
    have hmem := orderedNePairs_mem hpr
    obtain ⟨hro, he⟩ := List.mem_ite_nil_left.1 he
    have hro' : pr.1.rxOnly = false ∧ pr.2.rxOnly = false := by
      simpa [Bool.or_eq_true, not_or] using hro
    exact Or.inr ⟨pr.1, hmem.1, pr.2, hmem.2, hro'.1, hro'.2, imdPairEmissions_aggr he⟩

theorem victimBaseSeverity_bounds (v : String) :
    1 ≤ victimBaseSeverity v ∧ victimBaseSeverity v ≤ 5 := by
  unfold victimBaseSeverity
  cases hf : victimCriticality.find? (fun pr => hasSub v pr.1) with
  | none => exact ⟨le_refl 1, by decide⟩
  | some pr =>
    have hm := List.mem_of_find?_eq_some hf
    have h5 : pr.2 ≤ 5 := by
      have hall : ∀ q ∈ victimCriticality, q.2 ≤ 5 := by decide
      exact hall pr hm
    exact ⟨le_max_left 1 pr.2, max_le (by omega) h5⟩

theorem bandAdjustedSeverity_bounds (f : ℚ) (s : ℕ) (h1 : 1 ≤ s) (h5 : s ≤ 5) :
    1 ≤ bandAdjustedSeverity f s ∧ bandAdjustedSeverity f s ≤ 5 := by
  unfold bandAdjustedSeverity
  cases hf : criticalBands.find?
      (fun e => decide (e.2.1 ≤ f ∧ f ≤ e.2.2.1)) with
  | none => exact ⟨h1, h5⟩
  | some e =>
    have hm := List.mem_of_find?_eq_some hf
    have he5 : e.2.2.2 ≤ 5 := by
      have hall : ∀ q ∈ criticalBands, q.2.2.2 ≤ 5 := by decide
      exact hall e hm
    show 1 ≤ (if hasSub e.1 "GNSS" = true then 5 else max s e.2.2.2)
      ∧ (if hasSub e.1 "GNSS" = true then 5 else max s e.2.2.2) ≤ 5
    split_ifs
    · omega
    · exact ⟨le_trans h1 (le_max_left s _), max_le h5 he5⟩

theorem typeAdjustedSeverity_bounds (t : String) (s : ℕ) (h1 : 1 ≤ s) (h5 : s ≤ 5) :
    1 ≤ typeAdjustedSeverity t s ∧ typeAdjustedSeverity t s ≤ 5 := by
  unfold typeAdjustedSeverity
  split_ifs <;> omega

theorem assess_risk_severity_bounds (f : ℚ) (v a t : String) :
    1 ≤ (assess_risk_severity f v a t).2 ∧ (assess_risk_severity f v a t).2 ≤ 5 := by
  have h1 := victimBaseSeverity_bounds v
  have h2 := bandAdjustedSeverity_bounds f _ h1.1 h1.2
  have h3 := typeAdjustedSeverity_bounds t _ h2.1 h2.2
  unfold assess_risk_severity
  split_ifs <;> simp <;> omega

/-- The risk/severity/victims shape of every raw (pre-dedup) product. -/
def RawSeverityInv (p : Product) : Prop :=
  (p.severity = some 0 ∧ p.victims = "")
  ∨ (∃ s, p.severity = some s ∧ 1 ≤ s ∧ s ≤ 5 ∧ p.victims ≠ "")
  ∨ (p.severity = none ∧ p.risk = "⚠️" ∧ p.victims ≠ "")
  ∨ (p.severity = none ∧ p.risk = "✓" ∧ p.victims = "")

theorem victimize_inv (guard : ℚ) (e : Emission) (v : Band) (hv : v.code ≠ "") :
    RawSeverityInv (victimize guard e v) := by
  unfold RawSeverityInv
  by_cases hit : v.rx_low - guard ≤ e.freq ∧ e.freq ≤ v.rx_high + guard
  · have hd : decide (v.rx_low - guard ≤ e.freq ∧ e.freq ≤ v.rx_high + guard) = true :=
      decide_eq_true hit
    cases ha : e.assessed
    · refine Or.inr (Or.inr (Or.inl ⟨?_, ?_, ?_⟩)) <;>
        simp only [victimize, ha, hd, Bool.false_eq_true, eq_self_iff_true, if_true, if_false] <;>
        first
        | rfl
        | exact hv
    · have hb := assess_risk_severity_bounds e.freq v.code e.aggr e.etype
      refine Or.inr (Or.inl ⟨(assess_risk_severity e.freq v.code e.aggr e.etype).2,
        ?_, hb.1, hb.2, ?_⟩) <;>
        simp only [victimize, ha, hd, Bool.false_eq_true, eq_self_iff_true, if_true, if_false] <;>
        first
        | rfl
        | exact hv
  · have hd : decide (v.rx_low - guard ≤ e.freq ∧ e.freq ≤ v.rx_high + guard) = false :=
      decide_eq_false hit
    cases ha : e.assessed
    · refine Or.inr (Or.inr (Or.inr ⟨?_, ?_, ?_⟩)) <;>
        simp only [victimize, ha, hd, Bool.false_eq_true, eq_self_iff_true, if_true, if_false]
    · refine Or.inl ⟨?_, ?_⟩ <;>
        simp only [victimize, ha, hd, Bool.false_eq_true, eq_self_iff_true, if_true, if_false]

theorem aclrProducts_inv (bands : List Band) (aclr_margin : ℚ)
    (hcode : ∀ b ∈ bands, b.code ≠ "") :
    ∀ p ∈ aclrProducts bands aclr_margin, RawSeverityInv p := by
  intro p hp
  unfold aclrProducts at hp
  split_ifs at hp with hm
  · simp only [List.mem_flatMap] at hp
    obtain ⟨pr, hpr, hp⟩ := hp
    have hmem := orderedNePairs_mem hpr
    obtain ⟨_, hp⟩ := List.mem_ite_nil_left.1 hp
    rcases List.mem_singleton.1 hp with rfl
    unfold RawSeverityInv
    by_cases hr : aclr_check pr.1.tx_high pr.2.rx_low aclr_margin = true
    · refine Or.inr (Or.inr (Or.inl ⟨?_, ?_, ?_⟩)) <;>
        simp only [hr, eq_self_iff_true, if_true] <;>
        first
        | rfl
        | exact hcode pr.2 hmem.2
    · have hrf : aclr_check pr.1.tx_high pr.2.rx_low aclr_margin = false := by
        simpa using hr
      refine Or.inr (Or.inr (Or.inr ⟨?_, ?_, ?_⟩)) <;>
        simp only [hrf, Bool.false_eq_true, if_false]
  · simp at hp

theorem rawProducts_inv (bands : List Band) (guard : ℚ) (imd2 imd4 imd5 imd7 : Bool)
    (aclr_margin : ℚ) (hcode : ∀ b ∈ bands, b.code ≠ "") :
    ∀ p ∈ rawProducts bands guard imd2 imd4 imd5 imd7 aclr_margin, RawSeverityInv p := by
  intro p hp
  rcases List.mem_append.1 hp with hp | hp
  · rcases List.mem_flatMap.1 hp with ⟨e, _, hp⟩
    rcases List.mem_map.1 hp with ⟨v, hv, rfl⟩
    exact victimize_inv guard e v (hcode v hv)
  · exact aclrProducts_inv bands aclr_margin hcode p hp

theorem backfill_inv (p : Product) (h : RawSeverityInv p) :
    ∃ s, (backfill p).severity = some s ∧ s ≤ 5 ∧ (1 ≤ s ↔ (backfill p).victims ≠ "") := by
  rcases h with ⟨h1, h2⟩ | ⟨s, h1, hs1, hs5, h2⟩ | ⟨h1, h2, h3⟩ | ⟨h1, h2, h3⟩
  · have hb : backfill p = p := by
      unfold backfill
      rw [if_neg]
      rintro ⟨-, hsev⟩
      rw [h1] at hsev
      exact Option.some_ne_none 0 hsev
    refine ⟨0, by rw [hb, h1], by omega, ?_⟩
    rw [hb, h2]
    simp
  · have hb : backfill p = p := by
      unfold backfill
      rw [if_neg]
      rintro ⟨-, hsev⟩
      rw [h1] at hsev
      exact Option.some_ne_none s hsev
    refine ⟨s, by rw [hb, h1], hs5, ?_⟩
    rw [hb]
    simp [h2, hs1]
  · have hb : backfill p
        = { p with risk := (assess_risk_severity p.freq p.victims p.aggr p.ptype).1,
                   severity := some (assess_risk_severity p.freq p.victims p.aggr p.ptype).2 } := by
      unfold backfill
      rw [if_pos ⟨Or.inl h2, h1⟩, if_pos ⟨h2, h3⟩]
    have hbnd := assess_risk_severity_bounds p.freq p.victims p.aggr p.ptype
    refine ⟨_, by rw [hb], hbnd.2, ?_⟩
    rw [hb]
    simp [h3, hbnd.1]
  · have hb : backfill p = { p with risk := "✅", severity := some 0 } := by
      unfold backfill
      rw [if_pos ⟨Or.inr h2, h1⟩, if_neg (fun hc => by rw [h2] at hc; exact absurd hc.1 (by decide)),
        if_pos h2]
    refine ⟨0, by rw [hb], by omega, ?_⟩
    rw [hb]
    simp [h3]

/-- C10.  Provided every selected band has a non-empty code, every returned
product carries a severity value between 0 and 5, and the severity is at
least 1 exactly when the product's victim field is non-empty. -/
theorem calculate_all_products_severity (bands : List Band) (guard : ℚ)
    (imd2 imd4 imd5 imd7 : Bool) (aclr_margin : ℚ)
    (hcode : ∀ b ∈ bands, b.code ≠ "") :
    ∀ p ∈ (calculate_all_products bands guard imd2 imd4 imd5 imd7 aclr_margin).1,
      ∃ s, p.severity = some s ∧ s ≤ 5 ∧ (1 ≤ s ↔ p.victims ≠ "") := by
  intro p hp
  obtain ⟨q, hq, rfl⟩ := mem_final bands guard imd2 imd4 imd5 imd7 aclr_margin p hp
  exact backfill_inv q (rawProducts_inv bands guard imd2 imd4 imd5 imd7 aclr_margin hcode q hq)

theorem append_comma_inj : ∀ {A C : List Char} {B D : List Char},
    ',' ∉ A → ',' ∉ C → A ++ ',' :: B = C ++ ',' :: D → A = C ∧ B = D
  | [], [], B, D => by
    intro _ _ h
    simpa using h
  | [], c :: C', B, D => by
    intro _ hC h
    simp only [List.nil_append, List.cons_append, List.cons.injEq] at h
    exact absurd (h.1 ▸ List.mem_cons_self c C') (h.1 ▸ hC)
  | a :: A', [], B, D => by
    intro hA _ h
    simp only [List.cons_append, List.nil_append, List.cons.injEq] at h
    exact absurd (show ',' ∈ a :: A' by rw [h.1]; exact List.mem_cons_self ',' A') hA
  | a :: A', c :: C', B, D => by
    intro hA hC h
    simp only [List.cons_append, List.cons.injEq] at h
    have := append_comma_inj (fun hm => hA (List.mem_cons_of_mem _ hm))
      (fun hm => hC (List.mem_cons_of_mem _ hm)) h.2
    exact ⟨by rw [h.1, this.1], this.2⟩

theorem joined_codes_inj {a b c d : String}
    (ha : ',' ∉ a.data) (hc : ',' ∉ c.data)
    (h : a ++ ", " ++ b = c ++ ", " ++ d) : a = c ∧ b = d := by
  have hd : a.data ++ ',' :: ' ' :: b.data = c.data ++ ',' :: ' ' :: d.data := by
    have h2 := congrArg String.data h
    simpa [String.data_append, List.append_assoc] using h2
  have h3 := append_comma_inj ha hc hd
  refine ⟨String.ext h3.1, String.ext ?_⟩
  have := h3.2
  simpa using this

theorem single_ne_joined {a b c : String} (ha : ',' ∉ a.data) :
    a ≠ b ++ ", " ++ c := by
  intro h
  have h2 := congrArg String.data h
  rw [String.data_append, String.data_append] at h2
  refine ha ?_
  rw [h2]
  exact List.mem_append_left _ (List.mem_append_right _ (by decide))

/-- C2.  Every harmonic/IMD product of the returned list carries an
aggressor field built from the codes of one or two transmitting
(non-receive-only) selected bands; consequently — codes being pairwise
distinct and comma-free — a receive-only band's code never appears in it,
alone or on either side of a pair.  Conversely, every band of the
selection, receive-only bands included, is tested as a victim of every
harmonic/IMD emission: the corresponding victim-test product is in the raw
generated list. -/
theorem calculate_all_products_rx_only (bands : List Band) (guard : ℚ)
    (imd2 imd4 imd5 imd7 : Bool) (aclr_margin : ℚ)
    (hnodup : (bands.map Band.code).Nodup)
    (hcf : ∀ b ∈ bands, ',' ∉ b.code.data) :
    (∀ p ∈ (calculate_all_products bands guard imd2 imd4 imd5 imd7 aclr_margin).1,
      p.ptype ≠ "ACLR" →
        ((∃ b ∈ bands, b.rxOnly = false ∧ p.aggr = b.code)
          ∨ (∃ b1 ∈ bands, ∃ b2 ∈ bands, b1.rxOnly = false ∧ b2.rxOnly = false
              ∧ p.aggr = b1.code ++ ", " ++ b2.code))
        ∧ ∀ b ∈ bands, b.rxOnly = true →
            p.aggr ≠ b.code
            ∧ ∀ t ∈ bands, p.aggr ≠ b.code ++ ", " ++ t.code
                ∧ p.aggr ≠ t.code ++ ", " ++ b.code)
    ∧ (∀ e ∈ allEmissions bands imd2 imd4 imd5 imd7, ∀ v ∈ bands,
        victimize guard e v ∈ rawProducts bands guard imd2 imd4 imd5 imd7 aclr_margin) := by
  have hinj : ∀ x ∈ bands, ∀ y ∈ bands, x.code = y.code → x = y := by
    intro x hx y hy hxy
    exact List.inj_on_of_nodup_map hnodup hx hy hxy
  constructor
  · intro p hp hne
    obtain ⟨q, hq, rfl⟩ := mem_final bands guard imd2 imd4 imd5 imd7 aclr_margin p hp
    have hfields := backfill_fields q
    rcases List.mem_append.1 hq with hq' | hq'
    · rcases List.mem_flatMap.1 hq' with ⟨e, he, hq''⟩
      rcases List.mem_map.1 hq'' with ⟨v, _, rfl⟩
      have hagg : (victimize guard e v).aggr = e.aggr := by
        unfold victimize
        split_ifs <;> rfl
      have hchar := allEmissions_aggr bands imd2 imd4 imd5 imd7 e he
      rw [hfields.2.1, hagg]
      constructor
      · exact hchar
      · intro b hb hro
        rcases hchar with ⟨t1, ht1, htro, heq⟩ | ⟨t1, ht1, t2, ht2, ht1ro, ht2ro, heq⟩
        · refine ⟨?_, ?_⟩
          · rw [heq]
            intro hbc
            have hteq := hinj t1 ht1 b hb hbc
            rw [hteq, hro] at htro
            exact absurd htro (by decide)
          · intro t _
            rw [heq]
            exact ⟨single_ne_joined (hcf t1 ht1), single_ne_joined (hcf t1 ht1)⟩
        · refine ⟨?_, ?_⟩
          · rw [heq]
            intro hbc
            exact single_ne_joined (hcf b hb) hbc.symm
          · intro t ht
            rw [heq]
            constructor
            · intro hj
              have := joined_codes_inj (hcf t1 ht1) (hcf b hb) hj
              have hb1 := hinj t1 ht1 b hb this.1
              rw [hb1, hro] at ht1ro
              exact absurd ht1ro (by decide)
            · intro hj
              have := joined_codes_inj (hcf t1 ht1) (hcf t ht) hj
              have hb2 : t2.code = b.code := by
                have h2 := this.2
                exact h2
              have hb2' := hinj t2 ht2 b hb hb2
              rw [hb2', hro] at ht2ro
              exact absurd ht2ro (by decide)
    · exfalso
      apply hne
      rw [hfields.1]
      unfold aclrProducts at hq'
      split_ifs at hq'
      · rcases List.mem_flatMap.1 hq' with ⟨pr, _, hq''⟩
        obtain ⟨_, hq''⟩ := List.mem_ite_nil_left.1 hq''
        rcases List.mem_singleton.1 hq'' with rfl
        rfl
      · simp at hq'
  · intro e he v hv
    refine List.mem_append_left _ ?_
    exact List.mem_flatMap.2 ⟨e, he, List.mem_map.2 ⟨v, hv, rfl⟩⟩

/-- The zeta-expanded severity component of `assess_risk_severity`. -/
theorem assess_risk_severity_snd (f : ℚ) (v a t : String) :
    (assess_risk_severity f v a t).2 =
      (if (hasSub v "BLE" && hasSub a "WiFi" && decide (2400 ≤ f ∧ f ≤ 2500)) = true then 5
       else if (hasSub a "LTE_B13" || hasSub a "LTE_B14") = true then
         min ((if (hasSub a "," || hasSub (strLower a) " and ") = true then
             min (typeAdjustedSeverity t (bandAdjustedSeverity f (victimBaseSeverity v)) + 1) 5
           else typeAdjustedSeverity t (bandAdjustedSeverity f (victimBaseSeverity v))) + 1) 5
       else if (hasSub a "," || hasSub (strLower a) " and ") = true then
         min (typeAdjustedSeverity t (bandAdjustedSeverity f (victimBaseSeverity v)) + 1) 5
       else typeAdjustedSeverity t (bandAdjustedSeverity f (victimBaseSeverity v))) := rfl

/-- The resultant frequency lies in a GNSS-tagged critical spectrum window. -/
def inGnssWindow (f : ℚ) : Prop :=
  ∃ e ∈ criticalBands, hasSub e.1 "GNSS" = true ∧ e.2.1 ≤ f ∧ f ≤ e.2.2.1

/-- Inside a GNSS window, the frequency-window pass forces severity 5. -/
theorem bandAdjustedSeverity_gnss (f : ℚ) (s : ℕ) (hf : inGnssWindow f) :
    bandAdjustedSeverity f s = 5 := by
  obtain ⟨e, he, hg, hlo, hhi⟩ := hf
  simp only [criticalBands, List.mem_cons, List.not_mem_nil, or_false] at he
  rcases he with rfl | rfl | rfl | rfl | rfl | rfl | rfl | rfl | rfl | rfl | rfl
  · have hfind : criticalBands.find? (fun e => decide (e.2.1 ≤ f ∧ f ≤ e.2.2.1))
        = some ("GNSS_L1", 1575, 1576, 5) := by
      unfold criticalBands
      exact List.find?_cons_of_pos _ (decide_eq_true ⟨hlo, hhi⟩)
    unfold bandAdjustedSeverity
    rw [hfind]
    rfl
  · have hn1 : ¬ ((fun e : String × ℚ × ℚ × ℕ => decide (e.2.1 ≤ f ∧ f ≤ e.2.2.1))
        ("GNSS_L1", 1575, 1576, 5) = true) := by
      simp only [decide_eq_true_eq]
      rintro ⟨h1, -⟩
      have : f ≤ 1228 := hhi
      linarith
    have hfind : criticalBands.find? (fun e => decide (e.2.1 ≤ f ∧ f ≤ e.2.2.1))
        = some ("GNSS_L2", 1227, 1228, 5) := by
      unfold criticalBands
      rw [@List.find?_cons_of_neg _ (fun e => decide (e.2.1 ≤ f ∧ f ≤ e.2.2.1))
        ("GNSS_L1", 1575, 1576, 5) _ hn1]
      exact List.find?_cons_of_pos _ (decide_eq_true ⟨hlo, hhi⟩)
    unfold bandAdjustedSeverity
    rw [hfind]
    rfl
  · have hn1 : ¬ ((fun e : String × ℚ × ℚ × ℕ => decide (e.2.1 ≤ f ∧ f ≤ e.2.2.1))
        ("GNSS_L1", 1575, 1576, 5) = true) := by
      simp only [decide_eq_true_eq]
      rintro ⟨h1, -⟩
      have : f ≤ 1177 := hhi
      linarith
    have hn2 : ¬ ((fun e : String × ℚ × ℚ × ℕ => decide (e.2.1 ≤ f ∧ f ≤ e.2.2.1))
        ("GNSS_L2", 1227, 1228, 5) = true) := by
      simp only [decide_eq_true_eq]
      rintro ⟨h1, -⟩
      have : f ≤ 1177 := hhi
      linarith
    have hfind : criticalBands.find? (fun e => decide (e.2.1 ≤ f ∧ f ≤ e.2.2.1))
        = some ("GNSS_L5", 1176, 1177, 4) := by
      unfold criticalBands
      rw [@List.find?_cons_of_neg _ (fun e => decide (e.2.1 ≤ f ∧ f ≤ e.2.2.1))
        ("GNSS_L1", 1575, 1576, 5) _ hn1]
      rw [@List.find?_cons_of_neg _ (fun e => decide (e.2.1 ≤ f ∧ f ≤ e.2.2.1))
        ("GNSS_L2", 1227, 1228, 5) _ hn2]
      exact List.find?_cons_of_pos _ (decide_eq_true ⟨hlo, hhi⟩)
    unfold bandAdjustedSeverity
    rw [hfind]
    rfl
  all_goals exact absurd hg (by decide)

/-- C4 (amended).  Inside a GNSS-tagged window the severity is forced to 5
by the window pass, and survives every later rule except the IM4/IM5/IM7
product-type decrement, which can leave it at 4. -/
theorem assess_risk_severity_gnss (f : ℚ) (v a t : String) (hf : inGnssWindow f) :
    (assess_risk_severity f v a t).2 = 5
    ∨ ((assess_risk_severity f v a t).2 = 4 ∧ (t = "IM4" ∨ t = "IM5" ∨ t = "IM7")) := by
  have hb := bandAdjustedSeverity_gnss f (victimBaseSeverity v) hf
  by_cases h4 : t = "IM4" ∨ t = "IM5" ∨ t = "IM7"
  · have h3 : typeAdjustedSeverity t (bandAdjustedSeverity f (victimBaseSeverity v)) = 4 := by
      rw [hb]
      rcases h4 with h | h | h <;> subst h <;> decide
    rw [assess_risk_severity_snd, h3]
    split_ifs <;>
      first
      | exact Or.inl (by omega)
      | exact Or.inr ⟨by omega, h4⟩
  · have h3 : typeAdjustedSeverity t (bandAdjustedSeverity f (victimBaseSeverity v)) = 5 := by
      rw [hb]
      unfold typeAdjustedSeverity
      split_ifs <;> omega
    rw [assess_risk_severity_snd, h3]
    split_ifs <;> exact Or.inl (by omega)

/-- C4 (counterexample).  The frequency 1575 MHz lies in the GNSS_L1
critical window, yet an IM5 product with a single aggressor is assessed at
severity 4, not 5: the IM4/IM5/IM7 decrement overrides the GNSS forcing. -/
theorem assess_risk_severity_gnss_counterexample :
    (("GNSS_L1", (1575 : ℚ), (1576 : ℚ), (5 : ℕ)) ∈ criticalBands
      ∧ hasSub "GNSS_L1" "GNSS" = true
      ∧ (1575 : ℚ) ≤ 1575 ∧ (1575 : ℚ) ≤ 1576)
    ∧ (assess_risk_severity 1575 "V" "A" "IM5").2 = 4 := by
  constructor
  · exact ⟨by decide, by decide, le_refl _, by decide⟩
  · decide

/-!  IM3 pair symmetry (C6). -/

/-- The list of IM3 resultant frequencies the pair loop computes for the
ordered pair `(b1, b2)`. -/
def im3PairFreqs (b1 b2 : Band) : List ℚ := (im3Blocks b1 b2).map Emission.freq

theorem im3FundA_swap (b1 b2 : Band) (h1 : b1.tx_low ≠ 0) (h2 : b1.tx_high ≠ 0)
    (h3 : b2.tx_low ≠ 0) (h4 : b2.tx_high ≠ 0) :
    (im3FundA b1 b2).map Emission.freq = (im3FundB b2 b1).map Emission.freq := by
  simp [im3FundA, im3FundB, txEdges, h1, h2, h3, h4]

theorem im3MixA_swap (b1 b2 : Band) :
    (im3MixA b1 b2).map Emission.freq = (im3MixB b2 b1).map Emission.freq := by
  simp [im3MixA, im3MixB, txEdges]

theorem im3DblA_swap (b1 b2 : Band) :
    (im3DblA b1 b2).map Emission.freq = (im3DblB b2 b1).map Emission.freq := by
  simp [im3DblA, im3DblB, txEdges]

/-- C6.  For a pair of well-formed transmitting bands, the set of IM3
resultant frequencies generated for the ordered pair `(b1, b2)` equals the
set generated for `(b2, b1)` — stated as mutual membership — both raw and
after rounding to 2 decimals (the canonical-key frequency component). -/
theorem im3_pair_symmetry (b1 b2 : Band) (h1 : b1.tx_low ≠ 0) (h2 : b1.tx_high ≠ 0)
    (h3 : b2.tx_low ≠ 0) (h4 : b2.tx_high ≠ 0) :
    (∀ x : ℚ, x ∈ im3PairFreqs b1 b2 ↔ x ∈ im3PairFreqs b2 b1)
    ∧ (∀ x : ℚ, x ∈ (im3PairFreqs b1 b2).map round2 ↔ x ∈ (im3PairFreqs b2 b1).map round2) := by
  have e1 := im3FundA_swap b1 b2 h1 h2 h3 h4
  have e2 := (im3FundA_swap b2 b1 h3 h4 h1 h2).symm
  have e3 := im3MixA_swap b1 b2
  have e4 := (im3MixA_swap b2 b1).symm
  have e5 := im3DblA_swap b1 b2
  have e6 := (im3DblA_swap b2 b1).symm
  constructor
  · intro x
    unfold im3PairFreqs im3Blocks
    simp only [List.map_append]
    rw [e1, e2, e3, e4, e5, e6]
    simp only [List.mem_append]
    tauto
  · intro x
    unfold im3PairFreqs im3Blocks
    simp only [List.map_append]
    rw [e1, e2, e3, e4, e5, e6]
    simp only [List.map_append, List.mem_append]
    tauto

/-- C7.  `calculate_hd3_from_iip3` always lands in the clamped range
`[-70, -20]` dBc; at TX power 20 dBm and PA class "AB" the IIP3 = −10 dBm
case evaluates to −63 dBc, within the range, and raising IIP3 to 0 dBm
gives a strictly less negative (stronger) HD3 of −43 dBc. -/
theorem calculate_hd3_clamped :
    (∀ (tx iip3 : ℚ) (pa : String),
      -70 ≤ calculate_hd3_from_iip3 tx iip3 pa ∧ calculate_hd3_from_iip3 tx iip3 pa ≤ -20)
    ∧ calculate_hd3_from_iip3 20 (-10) "AB" = -63
    ∧ calculate_hd3_from_iip3 20 0 "AB" = -43
    ∧ calculate_hd3_from_iip3 20 (-10) "AB" < calculate_hd3_from_iip3 20 0 "AB" := by
  refine ⟨?_, ?_, ?_, ?_⟩
  · intro tx iip3 pa
    unfold calculate_hd3_from_iip3
    exact ⟨le_max_right _ _, max_le (min_le_right _ _) (by norm_num)⟩
  · have hne : (("AB" : String) = "A") = False := eq_false (by decide)
    norm_num [calculate_hd3_from_iip3, hne]
  · have hne : (("AB" : String) = "A") = False := eq_false (by decide)
    norm_num [calculate_hd3_from_iip3, hne]
  · have hne : (("AB" : String) = "A") = False := eq_false (by decide)
    norm_num [calculate_hd3_from_iip3, hne]

/-- C8 (amended).  A GNSS/GPS victim maps any desensitization ≥ 8 dB to the
Critical tier; a non-GNSS victim maps the same value to the strictly lower
High tier only while it is below 12 dB — at 12 dB and above both
technologies are Critical. -/
theorem assess_quantitative_risk_thresholds :
    (∀ (d : ℚ) (vc : String),
      (hasSub (strUpper vc) "GNSS" || hasSub (strUpper vc) "GPS") = true →
      8 ≤ d → (assess_quantitative_risk d vc).1 = "Critical")
    ∧ (∀ (d : ℚ) (vc : String),
      (hasSub (strUpper vc) "GNSS" || hasSub (strUpper vc) "GPS") = false →
      8 ≤ d → d < 12 →
      (assess_quantitative_risk d vc).1 = "High"
        ∧ risk_priority "High" < risk_priority "Critical")
    ∧ (∀ (d : ℚ) (vc : String),
      (hasSub (strUpper vc) "GNSS" || hasSub (strUpper vc) "GPS") = false →
      12 ≤ d → (assess_quantitative_risk d vc).1 = "Critical") := by
  refine ⟨?_, ?_, ?_⟩
  · intro d vc hg hd
    unfold assess_quantitative_risk
    rw [if_pos hg, if_pos hd]
  · intro d vc hg hd hlt
    unfold assess_quantitative_risk
    rw [if_neg (by rw [hg]; exact Bool.false_ne_true), if_neg (by intro h; linarith),
      if_pos (by linarith)]
    exact ⟨rfl, by decide⟩
  · intro d vc hg hd
    unfold assess_quantitative_risk
    rw [if_neg (by rw [hg]; exact Bool.false_ne_true), if_pos hd]

/-- C8 (counterexample).  At 12 dB of desensitization a GNSS victim and a
non-GNSS victim are both assessed Critical: the non-GNSS tier is not
strictly lower for every desensitization ≥ 8 dB. -/
theorem assess_quantitative_risk_counterexample :
    (8 : ℚ) ≤ 12
    ∧ (hasSub (strUpper "GNSS_L1") "GNSS" || hasSub (strUpper "GNSS_L1") "GPS") = true
    ∧ (hasSub (strUpper "LTE_B1") "GNSS" || hasSub (strUpper "LTE_B1") "GPS") = false
    ∧ (assess_quantitative_risk 12 "GNSS_L1").1 = "Critical"
    ∧ (assess_quantitative_risk 12 "LTE_B1").1 = "Critical"
    ∧ ¬ risk_priority (assess_quantitative_risk 12 "LTE_B1").1
        < risk_priority (assess_quantitative_risk 12 "GNSS_L1").1 := by
  refine ⟨by decide, by decide, by decide, by decide, by decide, by decide⟩

/-!  Unknown-IMD handling in the quantitative stage (C9). -/

/-- A placeholder harmonic-level function for concrete instantiations (the
unknown-IMD path never calls it). -/
def stubHarmLevel : ℚ → ℕ → SystemParameters → ℚ → ℚ × ℚ × String × String :=
  fun _ _ _ _ => (0, 0, "", "")

/-- A placeholder victim-side analysis for concrete instantiations. -/
def stubVictimAnal : ℚ → String → List String → SystemParameters → VictimAnalysis :=
  fun _ _ _ _ => ⟨0, 0, 0, 0, "", ""⟩

/-- An interference product whose tag is unknown to the quantitative stage. -/
def im6Product : Product :=
  ⟨"IM6", "Higher-order", "f", 100, "X", "V", "⚠️", none, "d"⟩

/-- C9 (counterexample).  A product typed `IM6` — an IMD tag unknown to the
quantitative stage — with an aggressor, a victim and a positive frequency
is not omitted by `analyze_interference_quantitative`: it produces exactly
one quantitative result. -/
theorem analyze_unknown_imd_counterexample :
    strStartsWith im6Product.ptype "IM" = true
    ∧ im6Product.ptype ∉ ["IM2", "IM3", "IM4", "IM5", "IM7"]
    ∧ imdPolynomialTable im6Product.ptype = none
    ∧ (analyze_interference_quantitative stubHarmLevel stubVictimAnal [im6Product] []
        defaultParams).length = 1 := by
  refine ⟨by decide, by decide, by decide, ?_⟩
  decide

theorem ite_tuple_formula {C : Prop} [Decidable C] (a1 a2 b1 b2 : ℚ) (f c : String) :
    ((if C then (a1, a2, f, c) else (b1, b2, f, c)) : ℚ × ℚ × String × String).2.2.1 = f := by
  split_ifs <;> rfl

/-- C9 (amended).  A product whose type starts with `IM` but is none of
IM2/IM3/IM4/IM5/IM7 is not skipped: `calculate_imd_level_quantitative`
falls back to the conservative −70 dBc estimate (its formula field reads
"Unknown … product"), and, provided the product has aggressors, victims
and a positive frequency, `analyze_interference_quantitative` emits one
result per victim. -/
theorem analyze_unknown_imd_included
    (harmLevel : ℚ → ℕ → SystemParameters → ℚ → ℚ × ℚ × String × String)
    (victimAnal : ℚ → String → List String → SystemParameters → VictimAnalysis)
    (params : SystemParameters) (band_objects : List Band) (p : Product)
    (hH : strEndsWith p.ptype "H" = false)
    (hIM : strStartsWith p.ptype "IM" = true)
    (hunk : imdPolynomialTable p.ptype = none)
    (hfreq : 0 < p.freq)
    (ha : (if p.aggr = "" then [] else strSplitOn p.aggr ", ") ≠ [])
    (hv : (if p.victims = "" then [] else strSplitOn p.victims ", ") ≠ []) :
    (analyze_interference_quantitative harmLevel victimAnal [p] band_objects params).length
      = (if p.victims = "" then [] else strSplitOn p.victims ", ").length
    ∧ 0 < (analyze_interference_quantitative harmLevel victimAnal [p] band_objects
        params).length
    ∧ (∀ pw1 pw2 : ℚ,
        (calculate_imd_level_quantitative pw1 pw2 p.ptype params).2.2.1
          = "Unknown " ++ p.ptype ++ " product") := by
  have hlen : (analyze_interference_quantitative harmLevel victimAnal [p] band_objects
      params).length = (if p.victims = "" then [] else strSplitOn p.victims ", ").length := by
    simp only [analyze_interference_quantitative, productInterferenceLevels, List.flatMap_cons,
      List.flatMap_nil, List.append_nil, hH, hIM, Bool.false_eq_true, if_false,
      eq_self_iff_true, if_true]
    rw [if_neg (show ¬((if p.aggr = "" then [] else strSplitOn p.aggr ", ") = []
        ∨ (if p.victims = "" then [] else strSplitOn p.victims ", ") = [] ∨ p.freq ≤ 0) by
      push_neg
      exact ⟨ha, hv, hfreq⟩)]
    exact List.length_map _ _
  refine ⟨hlen, ?_, ?_⟩
  · rw [hlen]
    exact List.length_pos.2 hv
  · intro pw1 pw2
    simp only [calculate_imd_level_quantitative, hunk]
    exact ite_tuple_formula _ _ _ _ _ _

def bandA : Band := ⟨"A", 1, 2, 100, 200⟩
def bandG : Band := ⟨"G", 0, 0, 5, 6⟩

def harmEmisA : List Emission :=
  [⟨"2H", "Harmonic", "2×Tx_low(A)", 2, "A", "2th Harmonic: 2×1 = 2 MHz (Band: A)", true⟩,
   ⟨"2H", "Harmonic", "2×Tx_high(A)", 4, "A", "2th Harmonic: 2×2 = 4 MHz (Band: A)", true⟩,
   ⟨"3H", "Harmonic", "3×Tx_low(A)", 3, "A", "3th Harmonic: 3×1 = 3 MHz (Band: A)", true⟩,
   ⟨"3H", "Harmonic", "3×Tx_high(A)", 6, "A", "3th Harmonic: 3×2 = 6 MHz (Band: A)", true⟩,
   ⟨"4H", "Harmonic", "4×Tx_low(A)", 4, "A", "4th Harmonic: 4×1 = 4 MHz (Band: A)", true⟩,
   ⟨"4H", "Harmonic", "4×Tx_high(A)", 8, "A", "4th Harmonic: 4×2 = 8 MHz (Band: A)", true⟩,
   ⟨"5H", "Harmonic", "5×Tx_low(A)", 5, "A", "5th Harmonic: 5×1 = 5 MHz (Band: A)", true⟩,
   ⟨"5H", "Harmonic", "5×Tx_high(A)", 10, "A", "5th Harmonic: 5×2 = 10 MHz (Band: A)", true⟩]

set_option maxHeartbeats 2000000 in
theorem evalE3 : allEmissions [bandA, bandG] true false true false = harmEmisA := by
  norm_num +decide [allEmissions, harmonicEmissions, im2Emissions, imdEmissions, upperPairs,
    orderedNePairs, im2PairEmissions, bandA, bandG, Band.rxOnly, txEdges, edgeLabel, harmEmisA]

def dedupA : List Product :=
  [⟨"2H", "Harmonic", "2×Tx_low(A)", 2, "A", "", "✅", some 0, "2th Harmonic: 2×1 = 2 MHz (Band: A)"⟩,
   ⟨"2H", "Harmonic", "2×Tx_high(A)", 4, "A", "", "✅", some 0, "2th Harmonic: 2×2 = 4 MHz (Band: A)"⟩,
   ⟨"3H", "Harmonic", "3×Tx_low(A)", 3, "A", "", "✅", some 0, "3th Harmonic: 3×1 = 3 MHz (Band: A)"⟩,
   ⟨"3H", "Harmonic", "3×Tx_high(A)", 6, "A", "", "✅", some 0, "3th Harmonic: 3×2 = 6 MHz (Band: A)"⟩,
   ⟨"4H", "Harmonic", "4×Tx_low(A)", 4, "A", "", "✅", some 0, "4th Harmonic: 4×1 = 4 MHz (Band: A)"⟩,
   ⟨"4H", "Harmonic", "4×Tx_high(A)", 8, "A", "", "✅", some 0, "4th Harmonic: 4×2 = 8 MHz (Band: A)"⟩,
   ⟨"5H", "Harmonic", "5×Tx_low(A)", 5, "A", "", "✅", some 0, "5th Harmonic: 5×1 = 5 MHz (Band: A)"⟩,
   ⟨"5H", "Harmonic", "5×Tx_high(A)", 10, "A", "", "✅", some 0, "5th Harmonic: 5×2 = 10 MHz (Band: A)"⟩]

def sortedA : List Product :=
  [⟨"2H", "Harmonic", "2×Tx_high(A)", 4, "A", "", "✅", some 0, "2th Harmonic: 2×2 = 4 MHz (Band: A)"⟩,
   ⟨"2H", "Harmonic", "2×Tx_low(A)", 2, "A", "", "✅", some 0, "2th Harmonic: 2×1 = 2 MHz (Band: A)"⟩,
   ⟨"3H", "Harmonic", "3×Tx_high(A)", 6, "A", "", "✅", some 0, "3th Harmonic: 3×2 = 6 MHz (Band: A)"⟩,
   ⟨"3H", "Harmonic", "3×Tx_low(A)", 3, "A", "", "✅", some 0, "3th Harmonic: 3×1 = 3 MHz (Band: A)"⟩,
   ⟨"4H", "Harmonic", "4×Tx_high(A)", 8, "A", "", "✅", some 0, "4th Harmonic: 4×2 = 8 MHz (Band: A)"⟩,
   ⟨"4H", "Harmonic", "4×Tx_low(A)", 4, "A", "", "✅", some 0, "4th Harmonic: 4×1 = 4 MHz (Band: A)"⟩,
   ⟨"5H", "Harmonic", "5×Tx_high(A)", 10, "A", "", "✅", some 0, "5th Harmonic: 5×2 = 10 MHz (Band: A)"⟩,
   ⟨"5H", "Harmonic", "5×Tx_low(A)", 5, "A", "", "✅", some 0, "5th Harmonic: 5×1 = 5 MHz (Band: A)"⟩]

set_option maxHeartbeats 4000000 in
theorem evalE1 : dedupedProducts [bandA] 0 true false true false 0 = dedupA := by
  norm_num +decide [dedupedProducts, rawProducts, allEmissions, harmonicEmissions, im2Emissions,
    imdEmissions, upperPairs, orderedNePairs, aclrProducts, bandA, Band.rxOnly, txEdges,
    edgeLabel, victimize, round2, backfill, dedupLoop, dedupKey, strSplitOn, splitSepAux,
    sortStrings, List.insertionSort, List.orderedInsert, dedupA]

set_option maxHeartbeats 4000000 in
theorem evalSortA : sortedProducts [bandA] 0 true false true false 0 = sortedA := by
  unfold sortedProducts
  rw [evalE1]
  norm_num +decide [List.insertionSort, List.orderedInsert, productLEP, sort_key,
    severityPriority, get_signal_level_priority, dedupA, sortedA, Prod.Lex.le_iff,
    String.lt_iff_toList_lt]

set_option maxHeartbeats 4000000 in
theorem evalE2 : calculate_all_products [bandA] 0 true false true false 0 = (sortedA, []) := by
  unfold calculate_all_products validProducts invalidCount
  rw [evalSortA]
  norm_num +decide [overlapAlerts, upperPairs, sortedA, bandA]

/-- A second transmitting band for concrete instantiations. -/
def bandB : Band := ⟨"B", 5, 7, 300, 400⟩

/-- C2 at the concrete pair `[bandA, bandG]` (one transmitter, one
receive-only band): the hypotheses hold by computation and the conclusion
is the theorem's. -/
theorem calculate_all_products_rx_only_witness :
    ([bandA, bandG].map Band.code).Nodup
    ∧ (∀ b ∈ [bandA, bandG], ',' ∉ b.code.data)
    ∧ ((∀ p ∈ (calculate_all_products [bandA, bandG] 0 true false true false 0).1,
          p.ptype ≠ "ACLR" →
            ((∃ b ∈ [bandA, bandG], b.rxOnly = false ∧ p.aggr = b.code)
              ∨ (∃ b1 ∈ [bandA, bandG], ∃ b2 ∈ [bandA, bandG], b1.rxOnly = false
                  ∧ b2.rxOnly = false ∧ p.aggr = b1.code ++ ", " ++ b2.code))
            ∧ ∀ b ∈ [bandA, bandG], b.rxOnly = true →
                p.aggr ≠ b.code
                ∧ ∀ u ∈ [bandA, bandG], p.aggr ≠ b.code ++ ", " ++ u.code
                    ∧ p.aggr ≠ u.code ++ ", " ++ b.code)
      ∧ (∀ e ∈ allEmissions [bandA, bandG] true false true false, ∀ v ∈ [bandA, bandG],
          victimize 0 e v ∈ rawProducts [bandA, bandG] 0 true false true false 0)) :=
  ⟨by decide, by decide,
   calculate_all_products_rx_only [bandA, bandG] 0 true false true false 0
     (by decide) (by decide)⟩

/-- C4 at the concrete input 1575 MHz (inside the GNSS_L1 window), victim
"V", aggressor "A", product type "2H". -/
theorem assess_risk_severity_gnss_witness :
    inGnssWindow 1575
    ∧ ((assess_risk_severity 1575 "V" "A" "2H").2 = 5
      ∨ ((assess_risk_severity 1575 "V" "A" "2H").2 = 4
          ∧ (("2H" : String) = "IM4" ∨ ("2H" : String) = "IM5"
              ∨ ("2H" : String) = "IM7"))) := by
  have hwin : inGnssWindow 1575 := by unfold inGnssWindow; decide
  exact ⟨hwin, assess_risk_severity_gnss 1575 "V" "A" "2H" hwin⟩

/-- C6 at the concrete transmitting pair `(bandA, bandB)`. -/
theorem im3_pair_symmetry_witness :
    bandA.tx_low ≠ 0 ∧ bandA.tx_high ≠ 0 ∧ bandB.tx_low ≠ 0 ∧ bandB.tx_high ≠ 0
    ∧ ((∀ x : ℚ, x ∈ im3PairFreqs bandA bandB ↔ x ∈ im3PairFreqs bandB bandA)
      ∧ (∀ x : ℚ, x ∈ (im3PairFreqs bandA bandB).map round2
          ↔ x ∈ (im3PairFreqs bandB bandA).map round2)) :=
  ⟨by decide, by decide, by decide, by decide,
   im3_pair_symmetry bandA bandB (by decide) (by decide) (by decide) (by decide)⟩

/-- C9 (amended) at the concrete unknown-tag product `im6Product` with the
placeholder harmonic/victim analyses and default parameters. -/
theorem analyze_unknown_imd_witness :
    strEndsWith im6Product.ptype "H" = false
    ∧ strStartsWith im6Product.ptype "IM" = true
    ∧ imdPolynomialTable im6Product.ptype = none
    ∧ 0 < im6Product.freq
    ∧ (if im6Product.aggr = "" then [] else strSplitOn im6Product.aggr ", ") ≠ []
    ∧ (if im6Product.victims = "" then [] else strSplitOn im6Product.victims ", ") ≠ []
    ∧ ((analyze_interference_quantitative stubHarmLevel stubVictimAnal [im6Product] []
          defaultParams).length
        = (if im6Product.victims = "" then [] else strSplitOn im6Product.victims ", ").length
      ∧ 0 < (analyze_interference_quantitative stubHarmLevel stubVictimAnal [im6Product] []
          defaultParams).length
      ∧ (∀ pw1 pw2 : ℚ,
          (calculate_imd_level_quantitative pw1 pw2 im6Product.ptype defaultParams).2.2.1
            = "Unknown " ++ im6Product.ptype ++ " product")) :=
  ⟨by decide, by decide, rfl, by decide, by decide, by decide,
   analyze_unknown_imd_included stubHarmLevel stubVictimAnal defaultParams [] im6Product
     (by decide) (by decide) rfl (by decide) (by decide) (by decide)⟩

/-- C10 at the concrete band list `[bandA]` with guard 0 and the default
toggle pattern. -/
theorem calculate_all_products_severity_witness :
    (∀ b ∈ [bandA], b.code ≠ "")
    ∧ ∀ p ∈ (calculate_all_products [bandA] 0 true false true false 0).1,
        ∃ s, p.severity = some s ∧ s ≤ 5 ∧ (1 ≤ s ↔ p.victims ≠ "") :=
  ⟨by decide, calculate_all_products_severity [bandA] 0 true false true false 0 (by decide)⟩
